import Mathlib

/-!
# redis_rate: the pipeline executor, the single-call Take and the reply decoders

A shallow embedding of `pipeline.go`, `concurrency.go`, `rate.go` and
`limiter.go`.

* The store (Redis behind go-redis) is an external collaborator.  It is a
  parameter: a `Store F σ` is an arbitrary state machine that answers pipelined
  round trips, `SCRIPT LOAD`, `EVALSHA` and `EVAL`.  Every statement quantified
  over `Store F σ` holds for every store behaviour.  `sequentialStore` builds
  the stores that execute the commands of a round trip one after the other.
* Every store interaction is recorded in a trace of `Event`s, so that the
  number and the order of round trips and script loads can be stated.
* Go pointers to result handles are modelled by position: a pipeline holds the
  pointee values in queue order and `exec` returns the updated values.
* A Go panic (failed type assertion, index out of range) is the outcome
  `panic`, distinct from a returned error.
* The recursion of `exec` and `takeMulti` on `depth` is written on the number
  of depths left, `11 - depth`; `exec_succ` and `exec_too_deep` give back the
  equations of the source.
* `float64` is kept abstract (`Float64Ops`): the client only parses, compares
  with `-1`, and converts, and no property below depends on float arithmetic.
* `int64` arithmetic wraps (`wrap64`).
* The Lua bodies of the three procedures are not among the sources; the lease
  procedure is modelled from the specification (`leaseTake`).
-/

namespace RedisRate

deriving instance DecidableEq for Except

/-! ## Go integers and `time.Duration` -/

/-- Nanoseconds in `time.Second`; a `time.Duration` is an int64 count of nanoseconds. -/
def Second : Int := 1000000000

/-- Smallest int64, `math.MinInt64` (also `minDuration`). -/
def minInt64 : Int := -9223372036854775808

/-- Largest int64, `math.MaxInt64` (also `maxDuration`). -/
def maxInt64 : Int := 9223372036854775807

/-- Two's-complement wrap-around of an integer into the int64 range. -/
def wrap64 (x : Int) : Int :=
  (x + 9223372036854775808) % 18446744073709551616 - 9223372036854775808

/-- Go `a - b` on int64. -/
def sub64 (a b : Int) : Int := wrap64 (a - b)

/-- Go `uint64(x)` for an int64 `x`. -/
def toUint64 (x : Int) : Int := x % 18446744073709551616

/-- Go `time.lessThanHalf(x, y)`: `uint64(x)+uint64(x) < uint64(y)`. -/
def lessThanHalf (x y : Int) : Bool :=
  decide (toUint64 (toUint64 x + toUint64 x) < toUint64 y)

/-- Go `time.Duration.Round(m)`: the multiple of `m` nearest to `d`, halfway
values rounded away from zero, saturating at the int64 bounds. -/
def Duration.Round (d m : Int) : Int :=
  if m ≤ 0 then d
  else
    let r := Int.tmod d m
    if d < 0 then
      let r := wrap64 (-r)
      if lessThanHalf r m then wrap64 (d + r)
      else
        let d1 := wrap64 (d - m + r)
        if d1 < d then d1 else minInt64
    else
      if lessThanHalf r m then wrap64 (d - r)
      else
        let d1 := wrap64 (d + m - r)
        if d1 > d then d1 else maxInt64

/-- The float64 operations the client relies on, provided by the Go runtime
and standard library.  `F` stands for `float64`. -/
structure Float64Ops (F : Type) where
  /-- Go `strconv.ParseFloat(s, 64)`. -/
  ParseFloat : String → Except String F
  /-- Go `time.Duration.Seconds`. -/
  Seconds : Int → F
  /-- The comparison `f == -1`. -/
  isNegOne : F → Bool
  /-- The conversion `time.Duration(f * float64(time.Second))`. -/
  toDuration : F → Int

/-! ## Errors -/

/-- The errors that reach the caller. -/
inductive Err where
  /-- The sentinel `ErrScriptFailed`: invalid result from SCRIPT EXISTS in pipeline. -/
  | ErrScriptFailed
  /-- The sentinel `ErrTooManyRetries`: pipeline too many retries to load scripts. -/
  | ErrTooManyRetries
  /-- A `redis.Error`: an error reply of the store, with its message. -/
  | reply (msg : String)
  /-- Any other error of the client library (network, context, decoding). -/
  | transport (msg : String)
  /-- The error of `strconv.ParseFloat`. -/
  | parse (msg : String)
  /-- The wrapping `fmt.Errorf("redis_rate: failed to load '<file>': %w", cause)`. -/
  | loadFailed (file : String) (cause : Err)
  deriving DecidableEq

/-- go-redis `HasErrorPrefix(err, prefix)`: `err` is an error reply whose
message, after an optional leading `"ERR "`, starts with `prefix`. -/
def HasErrorPrefix (err : Err) (pfx : String) : Bool :=
  match err with
  | .reply msg =>
    let m := msg.toList
    let m := if "ERR ".toList.isPrefixOf m then m.drop 4 else m
    pfx.toList.isPrefixOf m
  | _ => false

/-- What a Go call that returns an `error` can do: return nil, return an
error, or panic. -/
inductive Ret where
  | nil
  | err (e : Err)
  | panic
  deriving DecidableEq

/-- What a Go call that returns `(value, error)` can do. -/
inductive Outcome (α : Type) where
  | ok (a : α)
  | err (e : Err)
  | panic
  deriving DecidableEq

/-! ## The store interface -/

/-- The three server-side procedures (`*redis.Script` values). -/
inductive Script where
  | concurrencyTake
  | allowN
  | allowAtMost
  deriving DecidableEq

/-- An argument of a procedure invocation (`interface{}` in `values`). -/
inductive Arg (F : Type) where
  | str (s : String)
  | int (i : Int)
  | float (f : F)
  deriving DecidableEq

/-- A command queued on a go-redis pipeline. -/
inductive Cmd (F : Type) where
  /-- Go `script.Exists(ctx, pipe)`: SCRIPT EXISTS for the script's hash. -/
  | scriptExists (sc : Script)
  /-- Go `script.EvalSha(ctx, pipe, []string{key}, args...)`. -/
  | evalSha (sc : Script) (key : String) (args : List (Arg F))
  /-- Go `pipe.HDel(ctx, key, field)`. -/
  | hdel (key : String) (field : String)
  deriving DecidableEq

/-- One value of a multi-value reply, as go-redis hands it over in an
`interface{}`. -/
inductive Item where
  | int (i : Int)
  | str (s : String)
  | nil
  /-- Any other dynamic type (nested array, float, bool, ...). -/
  | other
  deriving DecidableEq

/-- The value of a `*redis.Cmd`: an `interface{}`. -/
inductive Reply where
  /-- A `[]interface{}` value. -/
  | array (values : List Item)
  /-- Anything that is not a `[]interface{}`. -/
  | single (x : Item)
  deriving DecidableEq

/-- What one pipelined round trip brings back: the error returned by
`pipe.Exec`, and the result each command object holds afterwards, the
existence probes and the invocations each in the order they were queued. -/
structure RoundTrip where
  err : Option Err
  probes : List (Except Err (List Bool))
  evals : List (Except Err Reply)
  deriving DecidableEq

/-- The store as seen through `RedisClientConn`: an arbitrary state machine. -/
structure Store (F σ : Type) where
  /-- A pipelined round trip (`Pipeliner.Exec` with at least one command). -/
  roundTrip : σ → List (Cmd F) → σ × RoundTrip
  /-- Go `script.Load(ctx, rdb)`: SCRIPT LOAD. -/
  scriptLoad : σ → Script → σ × Except Err String
  /-- Go `rdb.EvalSha`, not pipelined. -/
  evalSha : σ → Script → String → List (Arg F) → σ × Except Err Reply
  /-- Go `rdb.Eval`, not pipelined. -/
  eval : σ → Script → String → List (Arg F) → σ × Except Err Reply

/-- A store interaction. -/
inductive Event (F : Type) where
  | roundTrip (cmds : List (Cmd F)) (rt : RoundTrip)
  | scriptLoad (sc : Script)
  | evalSha (sc : Script) (key : String) (args : List (Arg F))
  | eval (sc : Script) (key : String) (args : List (Arg F))
  deriving DecidableEq

/-- The result of the `i`-th existence probe; a command object the store
never answered holds a nil slice and no error. -/
def RoundTrip.probe (rt : RoundTrip) (i : Nat) : Except Err (List Bool) :=
  rt.probes.getD i (.ok [])

/-- The result of the `i`-th invocation; a command object the store never
answered holds a nil value and no error. -/
def RoundTrip.eval (rt : RoundTrip) (i : Nat) : Except Err Reply :=
  rt.evals.getD i (.ok (.single .nil))

/-- go-redis `Pipeline.Exec`: with no queued command it returns `nil, nil`
without contacting the store; otherwise it is one round trip. -/
def pipeExec {F σ : Type} (st : Store F σ) (s : σ) (cmds : List (Cmd F)) :
    σ × RoundTrip × List (Event F) :=
  match cmds with
  | [] => (s, ⟨none, [], []⟩, [])
  | _ :: _ =>
    let r := st.roundTrip s cmds
    (r.1, r.2, [Event.roundTrip cmds r.2])

/-! ## Data model (`rate.go`, `concurrency.go`, `limiter.go`) -/

structure Limit where
  Rate : Int
  Burst : Int
  Period : Int
  deriving DecidableEq

structure Result where
  Key : String
  Limit : Limit
  Allowed : Int
  Used : Int
  Remaining : Int
  RetryAfter : Int
  ResetAfter : Int
  deriving DecidableEq

structure ConcurrencyLimit where
  Max : Int
  RequestMaxDuration : Int
  deriving DecidableEq

structure ConcurrencyResult where
  Key : String
  RequestID : String
  Limit : ConcurrencyLimit
  Allowed : Bool
  Used : Int
  Remaining : Int
  deriving DecidableEq

/-- The Limiter without its connection; the store state is passed explicitly. -/
structure Limiter where
  ratePrefix : String
  concurrentPrefix : String
  deriving DecidableEq

def defaultConcurrencyKeyPrefix : String := "concurrency:"

def defaultRedisPrefix : String := "rate:"

/-- The constructor `New(rdb)` with no options. -/
def New : Limiter :=
  { ratePrefix := defaultRedisPrefix, concurrentPrefix := defaultConcurrencyKeyPrefix }

/-- The method `Limiter.LoadScripts`: loads the three procedures in turn and stops at the
first failure.  Returns the store state, the error if any, and the loads issued. -/
def Limiter.LoadScripts {F σ : Type} (st : Store F σ) (s : σ) :
    σ × Option Err × List (Event F) :=
  let r1 := st.scriptLoad s .concurrencyTake
  match r1.2 with
  | .error e =>
    (r1.1, some (.loadFailed "script_concurrency_take.lua" e), [.scriptLoad .concurrencyTake])
  | .ok _ =>
    let r2 := st.scriptLoad r1.1 .allowN
    match r2.2 with
    | .error e =>
      (r2.1, some (.loadFailed "script_allow_n.lua" e),
        [.scriptLoad .concurrencyTake, .scriptLoad .allowN])
    | .ok _ =>
      let r3 := st.scriptLoad r2.1 .allowAtMost
      match r3.2 with
      | .error e =>
        (r3.1, some (.loadFailed "script_allow_at_most.lua" e),
          [.scriptLoad .concurrencyTake, .scriptLoad .allowN, .scriptLoad .allowAtMost])
      | .ok _ =>
        (r3.1, none,
          [.scriptLoad .concurrencyTake, .scriptLoad .allowN, .scriptLoad .allowAtMost])

/-! ## Rate replies (`rate.go`) -/

/-- The helper `dur(f)`. -/
def dur {F : Type} (fo : Float64Ops F) (f : F) : Int :=
  if fo.isNegOne f then -1 else fo.toDuration f

/-- The method `Result.parseScriptResult(values)`: the statements in source order.
`values[i]` panics when `i` is out of range, `.(string)` and `.(int64)` panic on
another dynamic type. -/
def Result.parseScriptResult {F : Type} (fo : Float64Ops F) (rv : Result)
    (values : List Item) : Outcome Result :=
  match (values[2]? : Option Item) with
  | some (.str s2) =>
    match fo.ParseFloat s2 with
    | .error m => .err (.parse m)
    | .ok retryAfter =>
      match (values[3]? : Option Item) with
      | some (.str s3) =>
        match fo.ParseFloat s3 with
        | .error m => .err (.parse m)
        | .ok resetAfter =>
          match (values[0]? : Option Item) with
          | some (.int allowed) =>
            match (values[1]? : Option Item) with
            | some (.int remaining) =>
              .ok { rv with
                    Allowed := allowed
                    Remaining := remaining
                    Used := 0
                    RetryAfter := dur fo retryAfter
                    ResetAfter := dur fo resetAfter }
            | _ => .panic
          | _ => .panic
      | _ => .panic
  | _ => .panic

/-! ## Concurrency leases, queued (`concurrency.go`) -/

/-- The pipeline: its limiter and the three queues.  `allowCommands` and
`takeCommands` hold the values the returned handles point to. -/
structure pipeline where
  l : Limiter
  releaseCommands : List (String × String)
  allowCommands : List Result
  takeCommands : List ConcurrencyResult
  deriving DecidableEq

/-- The method `Limiter.Pipeline`. -/
def Limiter.Pipeline (l : Limiter) : pipeline :=
  { l := l, releaseCommands := [], allowCommands := [], takeCommands := [] }

/-- The method `pipeline.Allow`: queues a handle holding only `Key` and `Limit`
and returns it. -/
def pipeline.Allow (p : pipeline) (key : String) (limit : Limit) : pipeline × Result :=
  let rv : Result :=
    { Key := key, Limit := limit, Allowed := 0, Used := 0, Remaining := 0,
      RetryAfter := 0, ResetAfter := 0 }
  ({ p with allowCommands := p.allowCommands ++ [rv] }, rv)

/-- The method `pipeline.Take`: queues a handle holding only `Key`, `Limit` and
`RequestID` and returns it. -/
def pipeline.Take (p : pipeline) (key requestID : String) (limit : ConcurrencyLimit) :
    pipeline × ConcurrencyResult :=
  let rv : ConcurrencyResult :=
    { Key := key, RequestID := requestID, Limit := limit, Allowed := false, Used := 0,
      Remaining := 0 }
  ({ p with takeCommands := p.takeCommands ++ [rv] }, rv)

/-- The method `pipeline.Release`. -/
def pipeline.Release (p : pipeline) (key requestID : String) : pipeline :=
  { p with releaseCommands := p.releaseCommands ++ [(key, requestID)] }

/-- The method `pipeline.allowPipe`: the invocation it queues on the round
trip, and the closure it returns, which reads the invocation's result and
fills the handle `rv`. -/
def pipeline.allowPipe {F : Type} (fo : Float64Ops F) (p : pipeline) (rv : Result) :
    Cmd F × (Except Err Reply → Outcome Result) :=
  (.evalSha .allowN (p.l.ratePrefix ++ rv.Key)
      [.int rv.Limit.Burst, .int rv.Limit.Rate, .float (fo.Seconds rv.Limit.Period), .int 1],
   fun res =>
    match res with
    | .error e => .err e
    | .ok (.array values) => rv.parseScriptResult fo values
    | .ok (.single _) => .panic)

/-- The method `pipeline.takePipe`: the invocation it queues, and the closure
it returns, which reads the invocation's result and fills the handle `rv`. -/
def pipeline.takePipe {F : Type} (p : pipeline) (rv : ConcurrencyResult) :
    Cmd F × (Except Err Reply → Outcome ConcurrencyResult) :=
  let reqPeriod := Int.tdiv (Duration.Round rv.Limit.RequestMaxDuration Second) Second
  let reqPeriod := if reqPeriod ≤ 0 then 60 else reqPeriod
  (.evalSha .concurrencyTake (p.l.concurrentPrefix ++ rv.Key)
      [.str rv.RequestID, .int rv.Limit.Max, .int reqPeriod],
   fun res =>
    match res with
    | .error e => .err e
    | .ok (.array values) =>
      match (values[0]? : Option Item) with
      | some (.int v0) =>
        match (values[1]? : Option Item) with
        | some (.int current) =>
          .ok { rv with
                Allowed := decide (v0 = 1)
                Used := current
                Remaining := sub64 rv.Limit.Max current }
        | _ => .panic
      | _ => .panic
    | .ok (.single _) => .panic)

/-- The method `Limiter.releasePipe`: one HDEL per queued release. -/
def Limiter.releasePipe {F : Type} (tk : Limiter) (items : List (String × String)) :
    List (Cmd F) :=
  items.map (fun v => .hdel (tk.concurrentPrefix ++ v.1) v.2)

/-! ## The batch executor (`pipeline.go`) -/

/-- The commands `exec` queues for one round trip, in order: the rate probe
and the rate invocations, the lease probe and the lease invocations, the
releases; a family with nothing queued contributes nothing. -/
def pipeline.commands {F : Type} (fo : Float64Ops F) (p : pipeline) : List (Cmd F) :=
  (if p.allowCommands.length > 0 then
      Cmd.scriptExists .allowN :: p.allowCommands.map (fun v => (p.allowPipe fo v).1)
    else []) ++
  (if p.takeCommands.length > 0 then
      Cmd.scriptExists .concurrencyTake :: p.takeCommands.map (fun v => (p.takePipe v).1)
    else []) ++
  (if p.releaseCommands.length > 0 then p.l.releasePipe p.releaseCommands else [])

/-- The length of `scriptExistChecks`. -/
def pipeline.scriptExistChecks (p : pipeline) : Nat :=
  (if p.allowCommands.length > 0 then 1 else 0) +
  (if p.takeCommands.length > 0 then 1 else 0)

/-- The test `err != nil && !redis.HasErrorPrefix(err, "NOSCRIPT")`: the error
`exec` returns right after the round trip, if any. -/
def roundTripFailure (err : Option Err) : Option Err :=
  match err with
  | some e => if HasErrorPrefix e "NOSCRIPT" then none else some e
  | none => none

/-- The three ways the loop over `scriptExistChecks` can end. -/
inductive ProbeCheck where
  /-- Every probe answered with one `true`. -/
  | present
  /-- A probe failed, or answered with a slice whose length is not 1. -/
  | fail (e : Err)
  /-- A probe answered `false`: the procedure is missing. -/
  | missing
  deriving DecidableEq

/-- The loop `for _, se := range scriptExistChecks`, up to the reload. -/
def checkProbes : List (Except Err (List Bool)) → ProbeCheck
  | [] => .present
  | .error e :: _ => .fail e
  | .ok [b] :: rest => if !b then .missing else checkProbes rest
  | .ok _ :: _ => .fail .ErrScriptFailed

/-- The loop `for _, fn := range finishFuncs` over the handles of one family:
the closure `f rv` of the `j`-th handle reads invocation `i + j`; the loop
stops at the first closure that fails, leaving that handle and the later ones
as they were. -/
def runFinish {α : Type} (f : α → Except Err Reply → Outcome α)
    (evals : Nat → Except Err Reply) : List α → Nat → List α × Ret
  | [], _ => ([], .nil)
  | rv :: rest, i =>
    match f rv (evals i) with
    | .ok rv1 =>
      let r := runFinish f evals rest (i + 1)
      (rv1 :: r.1, r.2)
    | .err e => (rv :: rest, .err e)
    | .panic => (rv :: rest, .panic)

/-- What a call of `exec` leaves behind: the returned error, the pipeline with
its handles, the store state, and the store interactions in order. -/
structure ExecResult (F σ : Type) where
  ret : Ret
  p : pipeline
  store : σ
  trace : List (Event F)

/-- The tail of `exec`: the loop over `finishFuncs`, first the closures of the
rate handles, then those of the lease handles, reading the answers of the
round trip `rt`; returns what `exec` returns and the pipeline with its handles. -/
def pipeline.finish {F : Type} (fo : Float64Ops F) (p : pipeline) (rt : RoundTrip) :
    Ret × pipeline :=
  let a := runFinish (fun rv => (p.allowPipe fo rv).2) rt.eval p.allowCommands 0
  match a.2 with
  | .nil =>
    let t := runFinish (fun rv => (p.takePipe (F := F) rv).2) rt.eval p.takeCommands
      p.allowCommands.length
    (t.2, { p with allowCommands := a.1, takeCommands := t.1 })
  | r => (r, { p with allowCommands := a.1 })

/-- The body of `pipeline.exec` below the depth test; `again` is the recursive
call `p.exec(ctx, depth+1)`. -/
def pipeline.execBody {F σ : Type} (fo : Float64Ops F) (st : Store F σ)
    (again : pipeline → σ → ExecResult F σ) (p : pipeline) (s : σ) : ExecResult F σ :=
  let x := pipeExec st s (p.commands fo)
  match roundTripFailure x.2.1.err with
  | some e => { ret := .err e, p := p, store := x.1, trace := x.2.2 }
  | none =>
    match checkProbes ((List.range p.scriptExistChecks).map x.2.1.probe) with
    | .fail e => { ret := .err e, p := p, store := x.1, trace := x.2.2 }
    | .missing =>
      let y := Limiter.LoadScripts st x.1
      match y.2.1 with
      | some e => { ret := .err e, p := p, store := y.1, trace := x.2.2 ++ y.2.2 }
      | none =>
        let r := again p y.1
        { r with trace := x.2.2 ++ y.2.2 ++ r.trace }
    | .present =>
      let f := p.finish fo x.2.1
      { ret := f.1, p := f.2, store := x.1, trace := x.2.2 }

/-- The recursion of `pipeline.exec`, indexed by the number of depths left
before the test `depth > 10` fires: `execAt n` is `exec` at depth `11 - n`. -/
def pipeline.execAt {F σ : Type} (fo : Float64Ops F) (st : Store F σ) :
    Nat → pipeline → σ → ExecResult F σ
  | 0, p, s => { ret := .err .ErrTooManyRetries, p := p, store := s, trace := [] }
  | n + 1, p, s => pipeline.execBody fo st (pipeline.execAt fo st n) p s

/-- The method `pipeline.exec(ctx, depth)`. -/
def pipeline.exec {F σ : Type} (fo : Float64Ops F) (st : Store F σ) (p : pipeline) (s : σ)
    (depth : Nat) : ExecResult F σ :=
  pipeline.execAt fo st (11 - depth) p s

/-- The method `pipeline.Exec`. -/
def pipeline.Exec {F σ : Type} (fo : Float64Ops F) (st : Store F σ) (p : pipeline) (s : σ) :
    ExecResult F σ :=
  p.exec fo st s 0

/-! ## Single calls (`concurrency.go`, `rate.go`) -/

/-- What a single call leaves behind: the returned value or error, the store
state, and the store interactions in order. -/
structure CallResult (F σ α : Type) where
  ret : Outcome α
  store : σ
  trace : List (Event F)

/-- Go map assignment `rv[key] = cr`, on an association list. -/
def mapSet (rv : List (String × ConcurrencyResult)) (key : String) (cr : ConcurrencyResult) :
    List (String × ConcurrencyResult) :=
  rv.filter (fun kv => kv.1 ≠ key) ++ [(key, cr)]

/-- Go map read `rv[key]`: the zero value when the key is absent. -/
def mapGet (rv : List (String × ConcurrencyResult)) (key : String) : ConcurrencyResult :=
  match rv.find? (fun kv => kv.1 = key) with
  | some kv => kv.2
  | none =>
    { Key := "", RequestID := "", Limit := { Max := 0, RequestMaxDuration := 0 },
      Allowed := false, Used := 0, Remaining := 0 }

/-- The loop `for _, result := range results` of `takeMulti`: entry `j` reads
invocation `i + j` and stores its `ConcurrencyResult` in the map `rv`. -/
def decodeTakes (requestID : String) (evals : Nat → Except Err Reply) :
    List (String × ConcurrencyLimit) → Nat → List (String × ConcurrencyResult) →
    Outcome (List (String × ConcurrencyResult))
  | [], _, rv => .ok rv
  | (key, limit) :: rest, i, rv =>
    match evals i with
    | .error e => .err e
    | .ok (.array values) =>
      match (values[0]? : Option Item) with
      | some (.int v0) =>
        match (values[1]? : Option Item) with
        | some (.int current) =>
          decodeTakes requestID evals rest (i + 1)
            (mapSet rv key
              { RequestID := requestID
                Key := key
                Allowed := decide (v0 = 1)
                Limit := limit
                Used := current
                Remaining := sub64 limit.Max current })
        | _ => .panic
      | _ => .panic
    | .ok (.single _) => .panic

/-- The commands `takeMulti` queues for one round trip: the existence probe
of the lease procedure, then one invocation per entry of `limits`. -/
def Limiter.takeMultiCommands {F : Type} (tk : Limiter) (requestID : String)
    (limits : List (String × ConcurrencyLimit)) : List (Cmd F) :=
  Cmd.scriptExists .concurrencyTake :: limits.map (fun kl =>
    let reqPeriod := Int.tdiv (Duration.Round kl.2.RequestMaxDuration Second) Second
    let reqPeriod := if reqPeriod ≤ 0 then 60 else reqPeriod
    .evalSha .concurrencyTake (tk.concurrentPrefix ++ kl.1)
      [.str requestID, .int kl.2.Max, .int reqPeriod])

/-- The body of `Limiter.takeMulti` below the depth test; `again` is the
recursive call `tk.takeMulti(ctx, requestID, limits, depth+1)`.  The map
`limits` is given as the list of its entries in iteration order. -/
def Limiter.takeMultiBody {F σ : Type} (st : Store F σ)
    (again : σ → CallResult F σ (List (String × ConcurrencyResult)))
    (tk : Limiter) (s : σ) (requestID : String) (limits : List (String × ConcurrencyLimit)) :
    CallResult F σ (List (String × ConcurrencyResult)) :=
  if limits.length = 0 then { ret := .ok [], store := s, trace := [] }
  else
    let x := pipeExec st s (tk.takeMultiCommands requestID limits)
    match x.2.1.err with
    | some e => { ret := .err e, store := x.1, trace := x.2.2 }
    | none =>
      match x.2.1.probe 0 with
      | .error e => { ret := .err e, store := x.1, trace := x.2.2 }
      | .ok [b] =>
        if !b then
          let y := Limiter.LoadScripts st x.1
          match y.2.1 with
          | some e => { ret := .err e, store := y.1, trace := x.2.2 ++ y.2.2 }
          | none =>
            let r := again y.1
            { r with trace := x.2.2 ++ y.2.2 ++ r.trace }
        else
          { ret := decodeTakes requestID x.2.1.eval limits 0 [], store := x.1, trace := x.2.2 }
      | .ok _ => { ret := .err .ErrScriptFailed, store := x.1, trace := x.2.2 }

/-- The recursion of `Limiter.takeMulti`, indexed by the number of depths left
before the test `depth > 10` fires: `takeMultiAt n` is `takeMulti` at depth
`11 - n`. -/
def Limiter.takeMultiAt {F σ : Type} (st : Store F σ) (tk : Limiter) (requestID : String)
    (limits : List (String × ConcurrencyLimit)) :
    Nat → σ → CallResult F σ (List (String × ConcurrencyResult))
  | 0, s => { ret := .err .ErrTooManyRetries, store := s, trace := [] }
  | n + 1, s =>
    Limiter.takeMultiBody st (Limiter.takeMultiAt st tk requestID limits n) tk s requestID limits

/-- The method `Limiter.takeMulti(ctx, requestID, limits, depth)`. -/
def Limiter.takeMulti {F σ : Type} (st : Store F σ) (tk : Limiter) (s : σ) (requestID : String)
    (limits : List (String × ConcurrencyLimit)) (depth : Nat) :
    CallResult F σ (List (String × ConcurrencyResult)) :=
  Limiter.takeMultiAt st tk requestID limits (11 - depth) s

/-- The method `Limiter.Take`. -/
def Limiter.Take {F σ : Type} (st : Store F σ) (tk : Limiter) (s : σ) (key requestID : String)
    (limit : ConcurrencyLimit) : CallResult F σ ConcurrencyResult :=
  let r := tk.takeMulti st s requestID [(key, limit)] 0
  match r.ret with
  | .err e => { ret := .err e, store := r.store, trace := r.trace }
  | .panic => { ret := .panic, store := r.store, trace := r.trace }
  | .ok rv => { ret := .ok (mapGet rv key), store := r.store, trace := r.trace }

/-- go-redis `Script.Run`: EVALSHA, then EVAL with the full body when the
answer is a NOSCRIPT error. -/
def Script.Run {F σ : Type} (st : Store F σ) (s : σ) (sc : Script) (key : String)
    (args : List (Arg F)) : σ × Except Err Reply × List (Event F) :=
  let r := st.evalSha s sc key args
  match r.2 with
  | .error e =>
    if HasErrorPrefix e "NOSCRIPT" then
      let r2 := st.eval r.1 sc key args
      (r2.1, r2.2, [.evalSha sc key args, .eval sc key args])
    else (r.1, .error e, [.evalSha sc key args])
  | .ok v => (r.1, .ok v, [.evalSha sc key args])

/-- The method `Limiter.AllowN`. -/
def Limiter.AllowN {F σ : Type} (fo : Float64Ops F) (st : Store F σ) (l : Limiter) (s : σ)
    (key : String) (limit : Limit) (n : Int) : CallResult F σ Result :=
  let r := Script.Run st s .allowN (l.ratePrefix ++ key)
    [.int limit.Burst, .int limit.Rate, .float (fo.Seconds limit.Period), .int n]
  match r.2.1 with
  | .error e => { ret := .err e, store := r.1, trace := r.2.2 }
  | .ok (.array values) =>
    let rv : Result :=
      { Key := key, Limit := limit, Allowed := 0, Used := 0, Remaining := 0,
        RetryAfter := 0, ResetAfter := 0 }
    { ret := rv.parseScriptResult fo values, store := r.1, trace := r.2.2 }
  | .ok (.single _) => { ret := .panic, store := r.1, trace := r.2.2 }

/-- The method `Limiter.Allow`: a shortcut for `AllowN(ctx, key, limit, 1)`. -/
def Limiter.Allow {F σ : Type} (fo : Float64Ops F) (st : Store F σ) (l : Limiter) (s : σ)
    (key : String) (limit : Limit) : CallResult F σ Result :=
  l.AllowN fo st s key limit 1

/-! ## Reading traces -/

/-- The number of round trips in a trace. -/
def roundTrips {F : Type} (tr : List (Event F)) : Nat :=
  (tr.filter (fun e => match e with | .roundTrip _ _ => true | _ => false)).length

/-- The number of SCRIPT LOAD calls for `sc` in a trace.  A call of
`LoadScripts` issues exactly one for `concurrencyTake`, first. -/
def scriptLoads {F : Type} (sc : Script) (tr : List (Event F)) : Nat :=
  (tr.filter (fun e => match e with | .scriptLoad x => decide (x = sc) | _ => false)).length

/-- The command lists of the round trips of a trace, in order. -/
def sentBatches {F : Type} : List (Event F) → List (List (Cmd F))
  | [] => []
  | .roundTrip cmds _ :: rest => cmds :: sentBatches rest
  | _ :: rest => sentBatches rest

/-- The answer of the last round trip of a trace. -/
def lastRoundTrip {F : Type} : List (Event F) → Option RoundTrip
  | [] => none
  | .roundTrip _ rt :: rest =>
    match lastRoundTrip rest with
    | some x => some x
    | none => some rt
  | _ :: rest => lastRoundTrip rest

/-- The method `Limiter.releaseMulti`. -/
def Limiter.releaseMulti {F σ : Type} (st : Store F σ) (tk : Limiter) (s : σ)
    (requestID : String) (limits : List (String × ConcurrencyLimit)) : CallResult F σ Unit :=
  let cmds : List (Cmd F) := limits.map (fun kl => .hdel (tk.concurrentPrefix ++ kl.1) requestID)
  if cmds.length = 0 then { ret := .ok (), store := s, trace := [] }
  else
    let x := pipeExec st s cmds
    match x.2.1.err with
    | some e => { ret := .err e, store := x.1, trace := x.2.2 }
    | none => { ret := .ok (), store := x.1, trace := x.2.2 }

/-- The method `Limiter.Release`. -/
def Limiter.Release {F σ : Type} (st : Store F σ) (tk : Limiter) (s : σ)
    (key requestID : String) (limit : ConcurrencyLimit) : CallResult F σ Unit :=
  tk.releaseMulti st s requestID [(key, limit)]

/-- The answer `exec` reads its results from: that of the last round trip, or
the empty answer of go-redis when no command was queued. -/
def finalAnswer {F : Type} (tr : List (Event F)) : RoundTrip :=
  (lastRoundTrip tr).getD { err := none, probes := [], evals := [] }

/-- The EVALSHA invocations a trace carries, pipelined or direct, in order. -/
def sentInvocations {F : Type} : List (Event F) → List (Cmd F)
  | [] => []
  | .roundTrip cmds _ :: rest =>
    cmds.filter (fun c => match c with | .evalSha _ _ _ => true | _ => false) ++
      sentInvocations rest
  | .evalSha sc key args :: rest => .evalSha sc key args :: sentInvocations rest
  | _ :: rest => sentInvocations rest

/-- Queue one `Allow` per entry, in order, on a fresh pipeline. -/
def queueAllows (l : Limiter) (ops : List (String × Limit)) : pipeline :=
  ops.foldl (fun p kl => (p.Allow kl.1 kl.2).1) l.Pipeline

/-- Call `AllowN(key, limit, 1)` for each entry in turn: the returned values,
the store state afterwards, and the store interactions. -/
def allowEach {F σ : Type} (fo : Float64Ops F) (st : Store F σ) (l : Limiter) :
    List (String × Limit) → σ → List (Outcome Result) × σ × List (Event F)
  | [], s => ([], s, [])
  | kl :: rest, s =>
    let r := l.AllowN fo st s kl.1 kl.2 1
    let t := allowEach fo st l rest r.store
    (r.ret :: t.1, t.2.1, r.trace ++ t.2.2)

/-! ## Stores that execute their commands one after the other -/

/-- The meaning of each store command on a store state. -/
structure Commands (F σ : Type) where
  /-- SCRIPT EXISTS: reads the state only. -/
  scriptExists : σ → Script → Except Err (List Bool)
  /-- EVALSHA. -/
  evalSha : σ → Script → String → List (Arg F) → σ × Except Err Reply
  /-- EVAL with the full body. -/
  eval : σ → Script → String → List (Arg F) → σ × Except Err Reply
  /-- HDEL. -/
  hdel : σ → String → String → σ
  /-- SCRIPT LOAD. -/
  scriptLoad : σ → Script → σ × Except Err String

/-- go-redis `cmdsFirstErr`: the first error among the commands of a pipeline. -/
def firstError {α : Type} (a : Except Err α) (later : Option Err) : Option Err :=
  match a with
  | .error e => some e
  | .ok _ => later

/-- One pipelined round trip on a store that executes the commands in the
order received; `Exec` reports the first command error. -/
def runCommands {F σ : Type} (c : Commands F σ) : σ → List (Cmd F) → σ × RoundTrip
  | s, [] => (s, { err := none, probes := [], evals := [] })
  | s, .scriptExists sc :: rest =>
    let a := c.scriptExists s sc
    let r := runCommands c s rest
    (r.1, { err := firstError a r.2.err, probes := a :: r.2.probes, evals := r.2.evals })
  | s, .evalSha sc key args :: rest =>
    let a := c.evalSha s sc key args
    let r := runCommands c a.1 rest
    (r.1, { err := firstError a.2 r.2.err, probes := r.2.probes, evals := a.2 :: r.2.evals })
  | s, .hdel key field :: rest => runCommands c (c.hdel s key field) rest

/-- The store that executes its commands one after the other. -/
def sequentialStore {F σ : Type} (c : Commands F σ) : Store F σ where
  roundTrip := runCommands c
  scriptLoad := c.scriptLoad
  evalSha := c.evalSha
  eval := c.eval

/-! ## The lease procedure -/

/-- Modelled from the spec: the concurrency-lease procedure, whose body
`script_concurrency_take.lua` is not among the sources.  From §4.2: it reads the
number `count` of live leases of the key; if `count < max` it creates or
refreshes the lease of `requestID` and answers allowed with `count + 1`, or the
unchanged count if `requestID` already held a lease; if `count >= max` and
`requestID` holds no lease it answers denied with `count` and changes nothing.
A `requestID` that already holds a lease is refreshed without increasing the
count (§3, idempotent upsert), also when `count >= max`.  Returns the live
leases afterwards and the pair `(ok, current)` of the answer. -/
def leaseTake (leases : List String) (requestID : String) (max : Int) :
    List String × Int × Int :=
  if requestID ∈ leases then (leases, 1, leases.length)
  else if (leases.length : Int) < max then (requestID :: leases, 1, (leases.length : Int) + 1)
  else (leases, 0, leases.length)

/-- Modelled from the spec: release removes the lease of `requestID` if present
(§4.2), as does the expiry of its TTL. -/
def leaseDrop (leases : List String) (requestID : String) : List String :=
  leases.filter (fun x => x ≠ requestID)

/-- The live leases of every store key. -/
abbrev Leases := String → List String

/-- Replace the leases of one store key. -/
def Leases.set (s : Leases) (key : String) (v : List String) : Leases :=
  fun k => if k = key then v else s k

/-- Modelled from the spec: a store on which the three procedures are
registered and the lease procedure behaves as `leaseTake`; the rate procedures,
whose bodies are not among the sources either, are not modelled and answer
with an error. -/
def leaseCommands (F : Type) : Commands F Leases where
  scriptExists _ _ := .ok [true]
  evalSha s sc key args :=
    match sc, args with
    | .concurrencyTake, [.str requestID, .int max, .int _] =>
      let r := leaseTake (s key) requestID max
      (s.set key r.1, .ok (.array [.int r.2.1, .int r.2.2]))
    | _, _ => (s, .error (.reply "ERR not modelled"))
  eval s _ _ _ := (s, .error (.reply "ERR not modelled"))
  hdel s key field := s.set key (leaseDrop (s key) field)
  scriptLoad s _ := (s, .ok "sha")

/-- Modelled from the spec: the store running the lease procedure. -/
def leaseStore (F : Type) : Store F Leases := sequentialStore (leaseCommands F)

/-- The store states reachable from the empty store through `Take` and
`Release` calls and lease expiry, in which every `Take` on the logical key `k`
was made with `Limit.Max` at most `B`. -/
inductive Reachable (F : Type) (tk : Limiter) (k : String) (B : Int) : Leases → Prop where
  | init : Reachable F tk k B (fun _ => [])
  | take (s : Leases) (key requestID : String) (limit : ConcurrencyLimit) :
      Reachable F tk k B s → (key = k → limit.Max ≤ B) →
      Reachable F tk k B (tk.Take (leaseStore F) s key requestID limit).store
  | release (s : Leases) (key requestID : String) (limit : ConcurrencyLimit) :
      Reachable F tk k B s →
      Reachable F tk k B (tk.Release (leaseStore F) s key requestID limit).store
  | expire (s : Leases) (storeKey requestID : String) :
      Reachable F tk k B s →
      Reachable F tk k B (s.set storeKey (leaseDrop (s storeKey) requestID))

/-! ## Stores and values used in examples -/

/-- An exact stand-in for float64 on whole seconds, enough to evaluate the
examples: it reads the decimal strings `-1`, `0` and `1`. -/
def wholeSeconds : Float64Ops Int where
  ParseFloat s :=
    if s = "-1" then .ok (-1)
    else if s = "0" then .ok 0
    else if s = "1" then .ok 1
    else .error "invalid syntax"
  Seconds d := Int.tdiv d Second
  isNegOne f := decide (f = -1)
  toDuration f := f * Second

/-- The error reply of EVALSHA for an unknown procedure. -/
def noScript : Err := .reply "NOSCRIPT No matching script. Please use EVAL."

/-- A store on which no procedure ever stays registered: every probe answers
`false`, every EVALSHA is answered with the NOSCRIPT error, every SCRIPT LOAD
succeeds. -/
def forgetfulStore : Store Int Unit :=
  sequentialStore
    { scriptExists := fun _ _ => .ok [false]
      evalSha := fun _ _ _ _ => ((), .error noScript)
      eval := fun _ _ _ _ => ((), .ok (.array [.int 1, .int 1]))
      hdel := fun _ _ _ => ()
      scriptLoad := fun _ _ => ((), .ok "sha") }

/-- A store whose probes answer `false` although its round trips report no
error, and on which every SCRIPT LOAD succeeds. -/
def silentStore : Store Int Unit where
  roundTrip _ _ := ((), { err := none, probes := [.ok [false], .ok [false]], evals := [] })
  scriptLoad _ _ := ((), .ok "sha")
  evalSha _ _ _ _ := ((), .error noScript)
  eval _ _ _ _ := ((), .ok (.array [.int 1, .int 1]))

/-- The commands of a store that starts with no procedure registered (state
`false`) and keeps the procedures once SCRIPT LOAD has run (state `true`); a
registered lease procedure answers `(1, 1)`, a registered rate procedure
`(1, 9, "-1", "1")`. -/
def coldCommands : Commands Int Bool where
  scriptExists s _ := .ok [s]
  evalSha s sc _ _ :=
    if s then
      match sc with
      | .concurrencyTake => (s, .ok (.array [.int 1, .int 1]))
      | _ => (s, .ok (.array [.int 1, .int 9, .str "-1", .str "1"]))
    else (s, .error noScript)
  eval s _ _ _ := (s, .ok (.array [.int 1, .int 1]))
  hdel s _ _ := s
  scriptLoad _ _ := (true, .ok "sha")

/-- The store with the commands `coldCommands`. -/
def coldStore : Store Int Bool := sequentialStore coldCommands

/-- A store with the procedures registered on which the rate procedure fails
for the key `rate:b`, which holds a value of another type, and answers
`(1, 9, "-1", "1")` for every other key. -/
def wrongTypeStore : Store Int Unit :=
  sequentialStore
    { scriptExists := fun _ _ => .ok [true]
      evalSha := fun _ _ key _ =>
        if key = "rate:b" then
          ((), .error (.reply "WRONGTYPE Operation against a key holding the wrong kind of value"))
        else ((), .ok (.array [.int 1, .int 9, .str "-1", .str "1"]))
      eval := fun _ _ _ _ => ((), .error (.reply "ERR unknown"))
      hdel := fun _ _ _ => ()
      scriptLoad := fun _ _ => ((), .ok "sha") }

/-- A store on which the probe and the first invocation are answered and the
second invocation gets the NOSCRIPT error, which `Exec` reports: the two keys
live on cluster nodes of which only one holds the procedure, or the procedures
are flushed by another client in the middle of the pipeline. -/
def flushedStore : Store Int Unit where
  roundTrip _ _ :=
    ((), { err := some noScript
           probes := [.ok [true]]
           evals := [.ok (.array [.int 1, .int 9, .str "-1", .str "1"]), .error noScript] })
  scriptLoad _ _ := ((), .ok "sha")
  evalSha _ _ _ _ := ((), .error noScript)
  eval _ _ _ _ := ((), .error (.reply "ERR unknown"))

/-- The pipeline `q` is the pipeline `p` after a loop over `finishFuncs` that
read the answer `rt` and failed with `e`: either the closure of the rate handle
`j` failed, the rate handles before `j` are filled and everything from `j` on
is as queued; or every rate handle is filled, the closure of the lease handle
`j` failed, the lease handles before `j` are filled and those from `j` on are
as queued. -/
def FilledUntilError {F : Type} (fo : Float64Ops F) (p q : pipeline) (rt : RoundTrip)
    (e : Err) : Prop :=
  (∃ j, j < p.allowCommands.length ∧
      q.allowCommands.drop j = p.allowCommands.drop j ∧
      q.takeCommands = p.takeCommands ∧
      (∀ (m : Nat) (rv : Result), m < j → p.allowCommands[m]? = some rv →
        ∃ rv1, q.allowCommands[m]? = some rv1 ∧
          (p.allowPipe fo rv).2 (rt.eval m) = .ok rv1) ∧
      ∃ rv, p.allowCommands[j]? = some rv ∧ (p.allowPipe fo rv).2 (rt.eval j) = .err e) ∨
  (∃ j, j < p.takeCommands.length ∧
      q.takeCommands.drop j = p.takeCommands.drop j ∧
      (∀ (m : Nat) (rv : Result), p.allowCommands[m]? = some rv →
        ∃ rv1, q.allowCommands[m]? = some rv1 ∧
          (p.allowPipe fo rv).2 (rt.eval m) = .ok rv1) ∧
      (∀ (m : Nat) (rv : ConcurrencyResult), m < j → p.takeCommands[m]? = some rv →
        ∃ rv1, q.takeCommands[m]? = some rv1 ∧
          (p.takePipe (F := F) rv).2 (rt.eval (p.allowCommands.length + m)) = .ok rv1) ∧
      ∃ rv, p.takeCommands[j]? = some rv ∧
        (p.takePipe (F := F) rv).2 (rt.eval (p.allowCommands.length + j)) = .err e)

/-- The limit used in the examples: 10 per second, burst 10. -/
def tenPerSecond : Limit := { Rate := 10, Burst := 10, Period := 1000000000 }

/-- A pipeline with two queued `Allow` calls, for the keys `a` and `b`. -/
def twoAllows : pipeline :=
  ((New.Pipeline.Allow "a" tenPerSecond).1.Allow "b" tenPerSecond).1

/-- A pipeline with one queued `Take`. -/
def oneTake : pipeline :=
  (New.Pipeline.Take "k" "r" { Max := 1, RequestMaxDuration := 5000000000 }).1

/-- The three SCRIPT LOAD calls of a successful `LoadScripts`, in order. -/
def threeLoads (F : Type) : List (Event F) :=
  [.scriptLoad .concurrencyTake, .scriptLoad .allowN, .scriptLoad .allowAtMost]

/-- What `exec` at `depth` does on the store state `s` when its round trip
finds a procedure missing.  It sends the round trip and then calls
`LoadScripts`, which issues SCRIPT LOAD for the lease, the rate and the
partial-rate procedure in this order and stops at the first that fails.  If a
load fails, `exec` returns that error, with the pipeline as it was and nothing
resubmitted.  If the three loads succeed, `exec` is the call at `depth + 1` on
the same, unmodified pipeline, after these interactions; below depth 10 that
call starts with a round trip carrying exactly the same commands; at depth 10
that call returns `ErrTooManyRetries` without any store interaction.  Whatever
happens, the handles `exec` leaves are either as queued or the queued handles
filled once from the answer of the last round trip. -/
def ReloadsThenResubmits {F σ : Type} (fo : Float64Ops F) (st : Store F σ) (p : pipeline)
    (s : σ) (depth : Nat) : Prop :=
  let x := st.roundTrip s (p.commands fo)
  let y := Limiter.LoadScripts st x.1
  let r := p.exec fo st s depth
  let r2 := p.exec fo st y.1 (depth + 1)
  (∃ rest, r.trace = Event.roundTrip (p.commands fo) x.2 :: (y.2.2 ++ rest)) ∧
  (∃ n, y.2.2 = (threeLoads F).take (n + 1)) ∧
  (∀ e, y.2.1 = some e →
    r.ret = .err e ∧ r.p = p ∧ r.trace = Event.roundTrip (p.commands fo) x.2 :: y.2.2) ∧
  (y.2.1 = none →
    y.2.2 = threeLoads F ∧
    r.ret = r2.ret ∧ r.p = r2.p ∧ r.store = r2.store ∧
    r.trace = Event.roundTrip (p.commands fo) x.2 :: (y.2.2 ++ r2.trace) ∧
    (depth < 10 → ∃ rt2 rest, r2.trace = Event.roundTrip (p.commands fo) rt2 :: rest) ∧
    (depth = 10 → r2.ret = .err .ErrTooManyRetries ∧ r2.trace = [] ∧ r.p = p)) ∧
  (r.p = p ∨ r.p = (p.finish fo (finalAnswer r.trace)).2)

/-- The store after `Take("k", "r1")` and `Take("k", "r2")`, both with `Max = 2`,
on the empty lease store: two live leases on the key. -/
def twoLeases : Leases :=
  (New.Take (leaseStore Int)
    (New.Take (leaseStore Int) (fun _ => []) "k" "r1" { Max := 2, RequestMaxDuration := 0 }).store
    "k" "r2" { Max := 2, RequestMaxDuration := 0 }).store

/-- The handle `pipeline.Allow(key, limit)` queues. -/
def queuedResult (kl : String × Limit) : Result :=
  { Key := kl.1, Limit := kl.2, Allowed := 0, Used := 0, Remaining := 0,
    RetryAfter := 0, ResetAfter := 0 }

/-- The procedure invocation of a rate check for one event, as the
specification words it: the rate procedure on the store key `ratePrefix + key`
with the arguments `Burst`, `Rate`, `Period` in seconds and `n = 1`. -/
def allowInvocation {F : Type} (fo : Float64Ops F) (l : Limiter) (kl : String × Limit) : Cmd F :=
  .evalSha .allowN (l.ratePrefix ++ kl.1)
    [.int kl.2.Burst, .int kl.2.Rate, .float (fo.Seconds kl.2.Period), .int 1]

/-- The two rate checks queued by `twoAllows`. -/
def twoChecks : List (String × Limit) := [("a", tenPerSecond), ("b", tenPerSecond)]

/-- A pipeline with three queued `Take` calls on the key `k`: `r1` and `r2`
with `Max = 2`, then `r3` with `Max = 1`. -/
def threeTakes : pipeline :=
  (((New.Pipeline.Take "k" "r1" { Max := 2, RequestMaxDuration := 0 }).1.Take "k" "r2"
    { Max := 2, RequestMaxDuration := 0 }).1.Take "k" "r3"
    { Max := 1, RequestMaxDuration := 0 }).1

/-! # Properties -/

/-! ## The executor, step by step -/

theorem pipeExec_cons {F σ : Type} (st : Store F σ) (s : σ) (cmds : List (Cmd F))
    (hc : cmds ≠ []) :
    pipeExec st s cmds =
      ((st.roundTrip s cmds).1, (st.roundTrip s cmds).2,
        [Event.roundTrip cmds (st.roundTrip s cmds).2]) := by
  cases cmds with
  | nil => exact absurd rfl hc
  | cons c cs => rfl

theorem exec_succ {F σ : Type} (fo : Float64Ops F) (st : Store F σ) (p : pipeline) (s : σ)
    (depth : Nat) (hd : depth ≤ 10) :
    p.exec fo st s depth =
      pipeline.execBody fo st (fun q t => q.exec fo st t (depth + 1)) p s := by
  unfold pipeline.exec
  obtain ⟨n, hn⟩ : ∃ n, 11 - depth = n + 1 := ⟨10 - depth, by omega⟩
  have h2 : 11 - (depth + 1) = n := by omega
  rw [hn, h2]
  rfl

theorem exec_too_deep {F σ : Type} (fo : Float64Ops F) (st : Store F σ) (p : pipeline) (s : σ)
    (depth : Nat) (hd : 10 < depth) :
    p.exec fo st s depth = { ret := .err .ErrTooManyRetries, p := p, store := s, trace := [] } := by
  unfold pipeline.exec
  have h : 11 - depth = 0 := by omega
  rw [h]
  rfl

/-- C8. If the round trip of an attempt of `Exec` (at any depth within the
bound) fails with an error that is not a NOSCRIPT error reply, `exec` returns
that error at once: the round trip is the only store interaction (no SCRIPT
LOAD, no further round trip) and no handle is modified. -/
theorem exec_roundTrip_error {F σ : Type} (fo : Float64Ops F) (st : Store F σ)
    (p : pipeline) (s : σ) (depth : Nat) (e : Err)
    (hd : depth ≤ 10) (hc : p.commands fo ≠ [])
    (he : (st.roundTrip s (p.commands fo)).2.err = some e)
    (hn : HasErrorPrefix e "NOSCRIPT" = false) :
    (p.exec fo st s depth).ret = .err e ∧
    (p.exec fo st s depth).p = p ∧
    (p.exec fo st s depth).trace =
      [Event.roundTrip (p.commands fo) (st.roundTrip s (p.commands fo)).2] ∧
    roundTrips (p.exec fo st s depth).trace = 1 ∧
    (∀ sc, scriptLoads sc (p.exec fo st s depth).trace = 0) := by
  rw [exec_succ fo st p s depth hd]
  simp [pipeline.execBody, pipeExec_cons st s _ hc, he, roundTripFailure, hn, roundTrips,
    scriptLoads]

theorem lastRoundTrip_append_some {F : Type} (a b : List (Event F)) (rt : RoundTrip)
    (h : lastRoundTrip b = some rt) : lastRoundTrip (a ++ b) = some rt := by
  induction a with
  | nil => simpa using h
  | cons e a ih =>
    cases e <;> simp [lastRoundTrip, ih]

theorem commands_eq_nil {F : Type} (fo : Float64Ops F) (p : pipeline)
    (h : p.commands fo = []) : p.allowCommands = [] ∧ p.takeCommands = [] := by
  unfold pipeline.commands at h
  constructor
  · cases ha : p.allowCommands with
    | nil => rfl
    | cons a as => simp [ha] at h
  · cases ht : p.takeCommands with
    | nil => rfl
    | cons a as => simp [ht] at h

theorem scriptExistChecks_pos {F : Type} (fo : Float64Ops F) (p : pipeline)
    (h : 0 < p.scriptExistChecks) : p.commands fo ≠ [] := by
  intro hc
  obtain ⟨ha, ht⟩ := commands_eq_nil fo p hc
  simp [pipeline.scriptExistChecks, ha, ht] at h

/-- Every call of `exec` either fails before the loop over `finishFuncs`,
leaving the pipeline as it was, or ends with that loop run once, on the
handles as queued and the answer of the last round trip. -/
theorem execAt_result {F σ : Type} (fo : Float64Ops F) (st : Store F σ) :
    ∀ (n : Nat) (p : pipeline) (s : σ),
      ((pipeline.execAt fo st n p s).p = p ∧ ∃ e, (pipeline.execAt fo st n p s).ret = .err e) ∨
      ∃ rt, (lastRoundTrip (pipeline.execAt fo st n p s).trace = some rt ∨
              (p.commands fo = [] ∧ (pipeline.execAt fo st n p s).trace = [] ∧
                rt = { err := none, probes := [], evals := [] })) ∧
            checkProbes ((List.range p.scriptExistChecks).map rt.probe) = .present ∧
            (pipeline.execAt fo st n p s).ret = (p.finish fo rt).1 ∧
            (pipeline.execAt fo st n p s).p = (p.finish fo rt).2 := by
  intro n
  induction n with
  | zero =>
    intro p s
    left
    exact ⟨rfl, _, rfl⟩
  | succ n ih =>
    intro p s
    show (_ ∧ _) ∨ _
    by_cases hc : p.commands fo = []
    · right
      obtain ⟨ha, ht⟩ := commands_eq_nil fo p hc
      refine ⟨{ err := none, probes := [], evals := [] }, Or.inr ⟨hc, ?_, rfl⟩, ?_, ?_, ?_⟩ <;>
        simp [pipeline.execAt, pipeline.execBody, hc, pipeExec, roundTripFailure,
          pipeline.scriptExistChecks, ha, ht, checkProbes]
    · simp only [pipeline.execAt, pipeline.execBody, pipeExec_cons st s _ hc]
      cases hf : roundTripFailure (st.roundTrip s (p.commands fo)).2.err with
      | some e => left; simp
      | none =>
        simp only []
        cases hp : checkProbes ((List.range p.scriptExistChecks).map
            (st.roundTrip s (p.commands fo)).2.probe) with
        | fail e => left; simp
        | present =>
          right
          exact ⟨_, Or.inl (by simp [lastRoundTrip]), hp, rfl, rfl⟩
        | missing =>
          simp only []
          cases hl : (Limiter.LoadScripts st (st.roundTrip s (p.commands fo)).1).2.1 with
          | some e => left; simp
          | none =>
            simp only []
            rcases ih p (Limiter.LoadScripts st (st.roundTrip s (p.commands fo)).1).1 with
              ⟨h1, e, h2⟩ | ⟨rt, h1, h2, h3, h4⟩
            · left; exact ⟨h1, e, h2⟩
            · right
              rcases h1 with h1 | ⟨h1, _⟩
              · exact ⟨rt, Or.inl (lastRoundTrip_append_some _ _ rt h1), h2, h3, h4⟩
              · exact absurd h1 hc

/-! ## The loop over `finishFuncs` -/

theorem runFinish_nil {α : Type} (f : α → Except Err Reply → Outcome α)
    (evals : Nat → Except Err Reply) :
    ∀ (l : List α) (i : Nat), (runFinish f evals l i).2 = .nil →
      (runFinish f evals l i).1.length = l.length ∧
      ∀ (j : Nat) (rv : α), l[j]? = some rv →
        ∃ rv1, (runFinish f evals l i).1[j]? = some rv1 ∧ f rv (evals (i + j)) = .ok rv1 := by
  intro l
  induction l with
  | nil => intro i _; simp [runFinish]
  | cons a l ih =>
    intro i h
    unfold runFinish at h ⊢
    cases hf : f a (evals i) with
    | ok a1 =>
      simp only [hf] at h ⊢
      obtain ⟨hl, hj⟩ := ih (i + 1) h
      refine ⟨by simp [hl], ?_⟩
      intro j rv hrv
      cases j with
      | zero =>
        simp at hrv
        subst hrv
        exact ⟨a1, by simp, by simpa using hf⟩
      | succ j =>
        simp at hrv
        obtain ⟨rv1, h1, h2⟩ := hj j rv hrv
        refine ⟨rv1, by simpa using h1, ?_⟩
        have : i + (j + 1) = i + 1 + j := by omega
        rw [this]; exact h2
    | err e => simp [hf] at h
    | panic => simp [hf] at h

theorem runFinish_err {α : Type} (f : α → Except Err Reply → Outcome α)
    (evals : Nat → Except Err Reply) (e : Err) :
    ∀ (l : List α) (i : Nat), (runFinish f evals l i).2 = .err e →
      ∃ j, j < l.length ∧
        (runFinish f evals l i).1.drop j = l.drop j ∧
        (∀ (m : Nat) (rv : α), m < j → l[m]? = some rv →
          ∃ rv1, (runFinish f evals l i).1[m]? = some rv1 ∧ f rv (evals (i + m)) = .ok rv1) ∧
        ∃ rv, l[j]? = some rv ∧ f rv (evals (i + j)) = .err e := by
  intro l
  induction l with
  | nil => intro i h; simp [runFinish] at h
  | cons a l ih =>
    intro i h
    unfold runFinish at h ⊢
    cases hf : f a (evals i) with
    | ok a1 =>
      simp only [hf] at h ⊢
      obtain ⟨j, hj, hd, hm, rv, hrv, hfe⟩ := ih (i + 1) h
      refine ⟨j + 1, by simp [hj], by simpa using hd, ?_, rv, by simpa using hrv, ?_⟩
      · intro m rv2 hlt hrv2
        cases m with
        | zero =>
          simp at hrv2
          subst hrv2
          exact ⟨a1, by simp, by simpa using hf⟩
        | succ m =>
          simp at hrv2
          obtain ⟨rv1, h1, h2⟩ := hm m rv2 (by omega) hrv2
          refine ⟨rv1, by simpa using h1, ?_⟩
          have : i + (m + 1) = i + 1 + m := by omega
          rw [this]; exact h2
      · have : i + (j + 1) = i + 1 + j := by omega
        rw [this]; exact hfe
    | err e1 =>
      simp only [hf] at h ⊢
      simp at h
      subst h
      exact ⟨0, by simp, by simp, by intro m rv hlt; omega, a, by simp, by simpa using hf⟩
    | panic => simp [hf] at h

/-- How a failing loop over `finishFuncs` leaves the handles. -/
theorem finish_err {F : Type} (fo : Float64Ops F) (p : pipeline) (rt : RoundTrip) (e : Err)
    (h : (p.finish fo rt).1 = .err e) :
    FilledUntilError fo p (p.finish fo rt).2 rt e := by
  unfold FilledUntilError
  unfold pipeline.finish at h ⊢
  cases ha : (runFinish (fun rv => (p.allowPipe fo rv).2) rt.eval p.allowCommands 0).2 with
  | nil =>
    right
    simp only [ha] at h ⊢
    obtain ⟨j, hj, hd, hm, hrv⟩ := runFinish_err _ _ e _ _ h
    obtain ⟨_, hall⟩ := runFinish_nil _ _ _ _ ha
    refine ⟨j, hj, hd, ?_, hm, hrv⟩
    intro m rv hrv
    simpa using hall m rv hrv
  | err e1 =>
    left
    simp only [ha] at h ⊢
    simp at h
    subst h
    obtain ⟨j, hj, hd, hm, hrv⟩ := runFinish_err _ _ e1 _ _ ha
    refine ⟨j, hj, hd, by first | rfl | trivial, ?_, ?_⟩
    · intro m rv hlt hrv2
      simpa using hm m rv hlt hrv2
    · simpa using hrv
  | panic => simp [ha] at h



theorem execAt_final {F σ : Type} (fo : Float64Ops F) (st : Store F σ)
    (n : Nat) (p : pipeline) (s : σ) :
    ((pipeline.execAt fo st n p s).p = p ∧ ∃ e, (pipeline.execAt fo st n p s).ret = .err e) ∨
    (checkProbes ((List.range p.scriptExistChecks).map
        (finalAnswer (pipeline.execAt fo st n p s).trace).probe) = .present ∧
      (pipeline.execAt fo st n p s).ret =
        (p.finish fo (finalAnswer (pipeline.execAt fo st n p s).trace)).1 ∧
      (pipeline.execAt fo st n p s).p =
        (p.finish fo (finalAnswer (pipeline.execAt fo st n p s).trace)).2) := by
  rcases execAt_result fo st n p s with h | ⟨rt, h1, h2, h3, h4⟩
  · exact Or.inl h
  · right
    have hrt : finalAnswer (pipeline.execAt fo st n p s).trace = rt := by
      rcases h1 with h1 | ⟨_, h1, h5⟩
      · simp [finalAnswer, h1]
      · simp [finalAnswer, h1, lastRoundTrip, h5]
    rw [hrt]
    exact ⟨h2, h3, h4⟩

/-- C2 (amended). If `Exec` returns an error, every handle whose closure had
not run successfully when the error arose still has the field values it was
queued with: either no handle at all was modified (the error came from the
depth bound, the round trip, an existence probe or `LoadScripts`, or from the
closure of the first handle), or the error came from the closure of a later
handle, the handles before it are filled from the answer of the last round
trip, and that handle and all later ones are as queued. -/
theorem exec_error_keeps_unfilled_handles {F σ : Type} (fo : Float64Ops F) (st : Store F σ)
    (p : pipeline) (s : σ) (e : Err) (h : (p.Exec fo st s).ret = .err e) :
    (p.Exec fo st s).p = p ∨
    FilledUntilError fo p (p.Exec fo st s).p (finalAnswer (p.Exec fo st s).trace) e := by
  unfold pipeline.Exec pipeline.exec at h ⊢
  rcases execAt_final fo st (11 - 0) p s with h1 | ⟨_, h2, h3⟩
  · exact Or.inl h1.1
  · right
    rw [h2] at h
    rw [h3]
    exact finish_err fo p _ e h

/-- C2, witness: on `flushedStore` the batch of two `Allow`s fails with the
NOSCRIPT error of its second invocation. -/
theorem exec_error_keeps_unfilled_handles_witness :
    (twoAllows.Exec wholeSeconds flushedStore ()).ret = .err noScript ∧
    ((twoAllows.Exec wholeSeconds flushedStore ()).p = twoAllows ∨
      FilledUntilError wholeSeconds twoAllows (twoAllows.Exec wholeSeconds flushedStore ()).p
        (finalAnswer (twoAllows.Exec wholeSeconds flushedStore ()).trace) noScript) :=
  ⟨by decide, exec_error_keeps_unfilled_handles wholeSeconds flushedStore twoAllows () noScript
    (by decide)⟩

/-- C2, counterexample: on `flushedStore` the round trip reports the NOSCRIPT
error of the second invocation, the probe answers `true`, the closure of the
first handle fills it and the closure of the second returns the error: `Exec`
fails although the first handle no longer has the values it was queued with. -/
theorem exec_error_with_filled_handle :
    (twoAllows.Exec wholeSeconds flushedStore ()).ret = .err noScript ∧
    twoAllows.allowCommands[0]? =
      some { Key := "a", Limit := tenPerSecond, Allowed := 0, Used := 0, Remaining := 0,
             RetryAfter := 0, ResetAfter := 0 } ∧
    (twoAllows.Exec wholeSeconds flushedStore ()).p.allowCommands[0]? =
      some { Key := "a", Limit := tenPerSecond, Allowed := 1, Used := 0, Remaining := 9,
             RetryAfter := -1, ResetAfter := 1000000000 } ∧
    (twoAllows.Exec wholeSeconds flushedStore ()).p ≠ twoAllows := by
  decide

/-! ## Lease replies -/

theorem items_two (values : List Item) (v0 current : Int)
    (h0 : (values[0]? : Option Item) = some (.int v0))
    (h1 : (values[1]? : Option Item) = some (.int current)) :
    ∃ rest, values = .int v0 :: .int current :: rest := by
  cases values with
  | nil => simp at h0
  | cons a t =>
    cases t with
    | nil => simp at h1
    | cons b rest =>
      simp at h0 h1
      exact ⟨rest, by rw [h0, h1]⟩

theorem takePipe_ok {F : Type} (p : pipeline) (rv rv1 : ConcurrencyResult)
    (res : Except Err Reply) (h : (p.takePipe (F := F) rv).2 res = .ok rv1) :
    ∃ v0 current rest, res = .ok (.array (.int v0 :: .int current :: rest)) ∧
      rv1 = { rv with Allowed := decide (v0 = 1), Used := current,
                      Remaining := sub64 rv.Limit.Max current } := by
  unfold pipeline.takePipe at h
  simp only at h
  split at h
  · exact absurd h (by simp)
  · rename_i values
    split at h
    · rename_i v0 h0
      split at h
      · rename_i current h1
        obtain ⟨rest, hr⟩ := items_two values v0 current h0 h1
        refine ⟨v0, current, rest, by rw [hr], ?_⟩
        simpa using h.symm
      · exact absurd h (by simp)
    · exact absurd h (by simp)
  · exact absurd h (by simp)

theorem decodeTakes_one (requestID key : String) (limit : ConcurrencyLimit)
    (evals : Nat → Except Err Reply) (rv : List (String × ConcurrencyResult))
    (h : decodeTakes requestID evals [(key, limit)] 0 [] = .ok rv) :
    ∃ v0 current rest, evals 0 = .ok (.array (.int v0 :: .int current :: rest)) ∧
      mapGet rv key =
        { Key := key, RequestID := requestID, Limit := limit, Allowed := decide (v0 = 1),
          Used := current, Remaining := sub64 limit.Max current } := by
  unfold decodeTakes at h
  split at h
  · exact absurd h (by simp)
  · rename_i values hev
    split at h
    · rename_i v0 h0
      split at h
      · rename_i current h1
        obtain ⟨rest, hr⟩ := items_two values v0 current h0 h1
        refine ⟨v0, current, rest, by rw [hev, hr], ?_⟩
        simp only [decodeTakes, Outcome.ok.injEq] at h
        subst h
        simp [mapSet, mapGet]
      · exact absurd h (by simp)
    · exact absurd h (by simp)
  · exact absurd h (by simp)

theorem takeMultiCommands_ne_nil {F : Type} (tk : Limiter) (requestID : String)
    (limits : List (String × ConcurrencyLimit)) :
    (tk.takeMultiCommands requestID limits : List (Cmd F)) ≠ [] := by
  simp [Limiter.takeMultiCommands]

/-- A `takeMulti` that returns a map decoded it from the answer of its last
round trip. -/
theorem takeMultiAt_ok {F σ : Type} (st : Store F σ) (tk : Limiter) (requestID : String)
    (limits : List (String × ConcurrencyLimit)) (hl : limits ≠ []) :
    ∀ (n : Nat) (s : σ) (rv : List (String × ConcurrencyResult)),
      (Limiter.takeMultiAt st tk requestID limits n s).ret = .ok rv →
      ∃ rt, lastRoundTrip (Limiter.takeMultiAt st tk requestID limits n s).trace = some rt ∧
        decodeTakes requestID rt.eval limits 0 [] = .ok rv := by
  intro n
  induction n with
  | zero => intro s rv h; simp [Limiter.takeMultiAt] at h
  | succ n ih =>
    intro s rv h
    have hlen : limits.length ≠ 0 := by
      intro h0; exact hl (List.length_eq_zero.mp h0)
    simp only [Limiter.takeMultiAt, Limiter.takeMultiBody, hlen, if_false,
      pipeExec_cons st s _ (takeMultiCommands_ne_nil tk requestID limits)] at h ⊢
    generalize st.roundTrip s _ = x at h ⊢
    cases hE : x.2.err with
    | some e => simp [hE] at h
    | none =>
      simp only [hE] at h ⊢
      cases hP : x.2.probe 0 with
      | error e => simp [hP] at h
      | ok bs =>
        match bs, hP with
        | [], hP => simp [hP] at h
        | _ :: _ :: _, hP => simp [hP] at h
        | [true], hP =>
          simp only [hP, Bool.not_true, Bool.false_eq_true, ↓reduceIte] at h ⊢
          exact ⟨x.2, by simp [lastRoundTrip], by simpa using h⟩
        | [false], hP =>
          simp only [hP, Bool.not_false, ↓reduceIte] at h ⊢
          cases hL : (Limiter.LoadScripts st x.1).2.1 with
          | some e => simp [hL] at h
          | none =>
            simp only [hL] at h ⊢
            obtain ⟨rt, h1, h2⟩ := ih _ rv h
            exact ⟨rt, lastRoundTrip_append_some _ _ rt h1, h2⟩



/-- C4. A successful `Take` builds its result from the reply `(ok, current)`
of the store: `Allowed = (ok == 1)`, `Used = current`, `Remaining =
Limit.Max - Used` (the int64 subtraction of Go, which is the integer
difference whenever that fits in an int64), and `Key`, `RequestID` and `Limit`
as passed in.  First conjunct: the single call, reading the first invocation of
its last round trip.  Second conjunct: a batch on which `Exec` returns nil, for
each queued `Take` handle, reading its invocation in the last round trip; the
handle keeps the `Key`, `RequestID` and `Limit` it was queued with. -/
theorem take_result_fields {F σ : Type} (fo : Float64Ops F) (st : Store F σ) (tk : Limiter)
    (s : σ) (key requestID : String) (limit : ConcurrencyLimit) (p : pipeline) :
    (∀ cr, (tk.Take st s key requestID limit).ret = .ok cr →
      ∃ ok current rest,
        (finalAnswer (tk.Take st s key requestID limit).trace).eval 0 =
          .ok (.array (.int ok :: .int current :: rest)) ∧
        cr = { Key := key, RequestID := requestID, Limit := limit,
               Allowed := decide (ok = 1), Used := current,
               Remaining := sub64 limit.Max current } ∧
        (minInt64 ≤ limit.Max - current → limit.Max - current ≤ maxInt64 →
          cr.Remaining = cr.Limit.Max - cr.Used)) ∧
    ((p.Exec fo st s).ret = .nil →
      ∀ (j : Nat) (rv : ConcurrencyResult), p.takeCommands[j]? = some rv →
        ∃ ok current rest,
          (finalAnswer (p.Exec fo st s).trace).eval (p.allowCommands.length + j) =
            .ok (.array (.int ok :: .int current :: rest)) ∧
          (p.Exec fo st s).p.takeCommands[j]? =
            some { Key := rv.Key, RequestID := rv.RequestID, Limit := rv.Limit,
                   Allowed := decide (ok = 1), Used := current,
                   Remaining := sub64 rv.Limit.Max current } ∧
          (minInt64 ≤ rv.Limit.Max - current → rv.Limit.Max - current ≤ maxInt64 →
            sub64 rv.Limit.Max current = rv.Limit.Max - current)) := by
  have hsub : ∀ a b : Int, minInt64 ≤ a - b → a - b ≤ maxInt64 → sub64 a b = a - b := by
    intro a b h1 h2
    unfold sub64 wrap64
    unfold minInt64 at h1
    unfold maxInt64 at h2
    omega
  constructor
  · intro cr h
    unfold Limiter.Take at h ⊢
    unfold Limiter.takeMulti at h ⊢
    cases hr : (Limiter.takeMultiAt st tk requestID [(key, limit)] (11 - 0) s).ret with
    | err e => simp [hr] at h
    | panic => simp [hr] at h
    | ok rv =>
      simp only [hr] at h ⊢
      obtain ⟨rt, h1, h2⟩ := takeMultiAt_ok st tk requestID [(key, limit)] (by simp) _ s rv hr
      obtain ⟨v0, current, rest, h3, h4⟩ := decodeTakes_one requestID key limit rt.eval rv h2
      refine ⟨v0, current, rest, ?_, ?_, ?_⟩
      · simp only [finalAnswer, h1, Option.getD_some]
        exact h3
      · simp only [Outcome.ok.injEq] at h
        rw [← h, h4]
      · intro hlo hhi
        simp only [Outcome.ok.injEq] at h
        rw [← h, h4]
        exact hsub _ _ hlo hhi
  · intro h j rv hrv
    unfold pipeline.Exec pipeline.exec at h ⊢
    rcases execAt_final fo st (11 - 0) p s with ⟨_, e, h1⟩ | ⟨_, h2, h3⟩
    · rw [h1] at h; exact absurd h (by simp)
    · rw [h2] at h
      rw [h3]
      generalize finalAnswer (pipeline.execAt fo st (11 - 0) p s).trace = rt at h ⊢
      unfold pipeline.finish at h ⊢
      cases ha : (runFinish (fun rv => (p.allowPipe fo rv).2) rt.eval p.allowCommands 0).2 with
      | err e => simp [ha] at h
      | panic => simp [ha] at h
      | nil =>
        simp only [ha] at h ⊢
        obtain ⟨_, hall⟩ := runFinish_nil _ _ _ _ h
        obtain ⟨rv1, h4, h5⟩ := hall j rv hrv
        obtain ⟨v0, current, rest, h6, h7⟩ := takePipe_ok p rv rv1 _ h5
        refine ⟨v0, current, rest, h6, ?_, hsub _ _⟩
        rw [h4, h7]

/-- C4, witness: on `coldStore` both the single call and the batch of one
`Take` succeed after one reload. -/
theorem take_result_fields_witness :
    (New.Take coldStore true "k" "r" { Max := 1, RequestMaxDuration := 5000000000 }).ret =
      .ok { Key := "k", RequestID := "r", Limit := { Max := 1, RequestMaxDuration := 5000000000 },
            Allowed := true, Used := 1, Remaining := 0 } ∧
    (oneTake.Exec wholeSeconds coldStore false).ret = .nil ∧
    (∃ ok current rest,
      (finalAnswer (New.Take coldStore true "k" "r"
          { Max := 1, RequestMaxDuration := 5000000000 }).trace).eval 0 =
        .ok (.array (.int ok :: .int current :: rest)) ∧
      ({ Key := "k", RequestID := "r", Limit := { Max := 1, RequestMaxDuration := 5000000000 },
         Allowed := true, Used := 1, Remaining := 0 } : ConcurrencyResult) =
        { Key := "k", RequestID := "r", Limit := { Max := 1, RequestMaxDuration := 5000000000 },
          Allowed := decide (ok = 1), Used := current, Remaining := sub64 1 current }) ∧
    (∃ ok current rest,
      (finalAnswer (oneTake.Exec wholeSeconds coldStore false).trace).eval
          (oneTake.allowCommands.length + 0) = .ok (.array (.int ok :: .int current :: rest)) ∧
      (oneTake.Exec wholeSeconds coldStore false).p.takeCommands[0]? =
        some { Key := "k", RequestID := "r",
               Limit := { Max := 1, RequestMaxDuration := 5000000000 },
               Allowed := decide (ok = 1), Used := current, Remaining := sub64 1 current }) := by
  have t := take_result_fields wholeSeconds coldStore New true "k" "r"
    { Max := 1, RequestMaxDuration := 5000000000 } oneTake
  have u := take_result_fields wholeSeconds coldStore New false "k" "r"
    { Max := 1, RequestMaxDuration := 5000000000 } oneTake
  refine ⟨by decide, by decide, ?_, ?_⟩
  · obtain ⟨ok, current, rest, h1, h2, _⟩ := t.1
      { Key := "k", RequestID := "r", Limit := { Max := 1, RequestMaxDuration := 5000000000 },
        Allowed := true, Used := 1, Remaining := 0 } (by decide)
    exact ⟨ok, current, rest, h1, h2⟩
  · obtain ⟨ok, current, rest, h1, h2, _⟩ := u.2 (by decide) 0
      { Key := "k", RequestID := "r", Limit := { Max := 1, RequestMaxDuration := 5000000000 },
        Allowed := false, Used := 0, Remaining := 0 } (by decide)
    exact ⟨ok, current, rest, h1, h2⟩

/-! ## Reloading -/

theorem roundTrips_append {F : Type} (a b : List (Event F)) :
    roundTrips (a ++ b) = roundTrips a + roundTrips b := by
  simp [roundTrips]

theorem scriptLoads_append {F : Type} (sc : Script) (a b : List (Event F)) :
    scriptLoads sc (a ++ b) = scriptLoads sc a + scriptLoads sc b := by
  simp [scriptLoads]

theorem sentBatches_append {F : Type} (a b : List (Event F)) :
    sentBatches (a ++ b) = sentBatches a ++ sentBatches b := by
  induction a with
  | nil => rfl
  | cons e a ih => cases e <;> simp [sentBatches, ih]

theorem LoadScripts_ok {F σ : Type} (st : Store F σ) (s : σ)
    (hl : ∀ t sc, ∃ sha, (st.scriptLoad t sc).2 = .ok sha) :
    (Limiter.LoadScripts st s).2.1 = none ∧ (Limiter.LoadScripts st s).2.2 = threeLoads F := by
  unfold Limiter.LoadScripts
  obtain ⟨a, ha⟩ := hl s .concurrencyTake
  obtain ⟨b, hb⟩ := hl (st.scriptLoad s .concurrencyTake).1 .allowN
  obtain ⟨c, hc⟩ := hl (st.scriptLoad (st.scriptLoad s .concurrencyTake).1 .allowN).1 .allowAtMost
  simp [ha, hb, hc, threeLoads]

theorem LoadScripts_trace {F σ : Type} (st : Store F σ) (s : σ) :
    (∃ n, (Limiter.LoadScripts st s).2.2 = (threeLoads F).take (n + 1)) ∧
    ((Limiter.LoadScripts st s).2.1 = none → (Limiter.LoadScripts st s).2.2 = threeLoads F) := by
  unfold Limiter.LoadScripts
  cases ha : (st.scriptLoad s .concurrencyTake).2 with
  | error e => exact ⟨⟨0, by simp [ha, threeLoads]⟩, by simp [ha]⟩
  | ok a =>
    cases hb : (st.scriptLoad (st.scriptLoad s .concurrencyTake).1 .allowN).2 with
    | error e => exact ⟨⟨1, by simp [ha, hb, threeLoads]⟩, by simp [ha, hb]⟩
    | ok b =>
      cases hc : (st.scriptLoad (st.scriptLoad (st.scriptLoad s .concurrencyTake).1
          .allowN).1 .allowAtMost).2 with
      | error e => exact ⟨⟨2, by simp [ha, hb, hc, threeLoads]⟩, by simp [ha, hb, hc]⟩
      | ok c => exact ⟨⟨2, by simp [ha, hb, hc, threeLoads]⟩, by simp [ha, hb, hc, threeLoads]⟩

theorem execBody_missing {F σ : Type} (fo : Float64Ops F) (st : Store F σ)
    (again : pipeline → σ → ExecResult F σ) (p : pipeline) (s : σ)
    (hf : roundTripFailure (st.roundTrip s (p.commands fo)).2.err = none)
    (hm : checkProbes ((List.range p.scriptExistChecks).map
      (st.roundTrip s (p.commands fo)).2.probe) = .missing) :
    pipeline.execBody fo st again p s =
      match (Limiter.LoadScripts st (st.roundTrip s (p.commands fo)).1).2.1 with
      | some e =>
        { ret := .err e, p := p,
          store := (Limiter.LoadScripts st (st.roundTrip s (p.commands fo)).1).1,
          trace := Event.roundTrip (p.commands fo) (st.roundTrip s (p.commands fo)).2 ::
            (Limiter.LoadScripts st (st.roundTrip s (p.commands fo)).1).2.2 }
      | none =>
        { again p (Limiter.LoadScripts st (st.roundTrip s (p.commands fo)).1).1 with
          trace := Event.roundTrip (p.commands fo) (st.roundTrip s (p.commands fo)).2 ::
            ((Limiter.LoadScripts st (st.roundTrip s (p.commands fo)).1).2.2 ++
              (again p (Limiter.LoadScripts st (st.roundTrip s (p.commands fo)).1).1).trace) } := by
  have hc : p.commands fo ≠ [] := by
    apply scriptExistChecks_pos
    by_contra h0
    have : p.scriptExistChecks = 0 := by omega
    rw [this] at hm
    simp [checkProbes] at hm
  simp only [pipeline.execBody, pipeExec_cons st s _ hc, hf, hm]
  cases (Limiter.LoadScripts st (st.roundTrip s (p.commands fo)).1).2.1 <;> simp

theorem execAt_always_missing {F σ : Type} (fo : Float64Ops F) (st : Store F σ) (p : pipeline)
    (hm : ∀ s, roundTripFailure (st.roundTrip s (p.commands fo)).2.err = none ∧
      checkProbes ((List.range p.scriptExistChecks).map
        (st.roundTrip s (p.commands fo)).2.probe) = .missing)
    (hl : ∀ s sc, ∃ sha, (st.scriptLoad s sc).2 = .ok sha) :
    ∀ (n : Nat) (s : σ),
      (pipeline.execAt fo st n p s).ret = .err .ErrTooManyRetries ∧
      (pipeline.execAt fo st n p s).p = p ∧
      roundTrips (pipeline.execAt fo st n p s).trace = n ∧
      (∀ sc, scriptLoads sc (pipeline.execAt fo st n p s).trace = n) ∧
      sentBatches (pipeline.execAt fo st n p s).trace = List.replicate n (p.commands fo) ∧
      (0 < n → (pipeline.execAt fo st n p s).trace.getLast? = some (.scriptLoad .allowAtMost)) := by
  intro n
  induction n with
  | zero =>
    intro s
    simp [pipeline.execAt, roundTrips, scriptLoads, sentBatches]
  | succ n ih =>
    intro s
    obtain ⟨hf, hp⟩ := hm s
    obtain ⟨h1, h2⟩ := LoadScripts_ok st (st.roundTrip s (p.commands fo)).1 hl
    obtain ⟨i1, i2, i3, i4, i5, i6⟩ :=
      ih (Limiter.LoadScripts st (st.roundTrip s (p.commands fo)).1).1
    simp only [pipeline.execAt, execBody_missing fo st _ p s hf hp, h1, h2]
    refine ⟨i1, i2, ?_, ?_, ?_, ?_⟩
    · rw [← List.singleton_append, roundTrips_append, roundTrips_append, i3]
      simp [roundTrips, threeLoads]; omega
    · intro sc
      rw [← List.singleton_append, scriptLoads_append, scriptLoads_append, i4 sc]
      cases sc <;> simp [scriptLoads, threeLoads] <;> omega
    · rw [← List.singleton_append, sentBatches_append, sentBatches_append, i5]
      simp [sentBatches, threeLoads, List.replicate_succ]
    · intro _
      cases n with
      | zero => simp [pipeline.execAt, threeLoads]
      | succ n =>
        have h6 := i6 (by omega)
        rw [← List.singleton_append, ← List.append_assoc, List.getLast?_append, h6]
        simp

theorem takeMultiAt_always_missing {F σ : Type} (st : Store F σ) (tk : Limiter)
    (requestID : String) (limits : List (String × ConcurrencyLimit)) (hne : limits ≠ [])
    (hm : ∀ s, (st.roundTrip s (tk.takeMultiCommands requestID limits)).2.err = none ∧
      (st.roundTrip s (tk.takeMultiCommands requestID limits)).2.probe 0 = .ok [false])
    (hl : ∀ s sc, ∃ sha, (st.scriptLoad s sc).2 = .ok sha) :
    ∀ (n : Nat) (s : σ),
      (Limiter.takeMultiAt st tk requestID limits n s).ret = .err .ErrTooManyRetries ∧
      roundTrips (Limiter.takeMultiAt st tk requestID limits n s).trace = n ∧
      (∀ sc, scriptLoads sc (Limiter.takeMultiAt st tk requestID limits n s).trace = n) ∧
      sentBatches (Limiter.takeMultiAt st tk requestID limits n s).trace =
        List.replicate n (tk.takeMultiCommands requestID limits) ∧
      (0 < n → (Limiter.takeMultiAt st tk requestID limits n s).trace.getLast? =
        some (.scriptLoad .allowAtMost)) := by
  intro n
  induction n with
  | zero =>
    intro s
    simp [Limiter.takeMultiAt, roundTrips, scriptLoads, sentBatches]
  | succ n ih =>
    intro s
    have hlen : limits.length ≠ 0 := by
      intro h0; exact hne (List.length_eq_zero.mp h0)
    obtain ⟨hf, hp⟩ := hm s
    obtain ⟨h1, h2⟩ :=
      LoadScripts_ok st (st.roundTrip s (tk.takeMultiCommands requestID limits)).1 hl
    obtain ⟨i1, i3, i4, i5, i6⟩ :=
      ih (Limiter.LoadScripts st (st.roundTrip s (tk.takeMultiCommands requestID limits)).1).1
    simp only [Limiter.takeMultiAt, Limiter.takeMultiBody, hlen, if_false,
      pipeExec_cons st s _ (takeMultiCommands_ne_nil tk requestID limits), hf, hp,
      Bool.not_false, ↓reduceIte, h1, h2]
    refine ⟨i1, ?_, ?_, ?_, ?_⟩
    · rw [roundTrips_append, roundTrips_append, i3]
      simp [roundTrips, threeLoads]; omega
    · intro sc
      rw [scriptLoads_append, scriptLoads_append, i4 sc]
      cases sc <;> simp [scriptLoads, threeLoads] <;> omega
    · rw [sentBatches_append, sentBatches_append, i5]
      simp [sentBatches, threeLoads, List.replicate_succ]
    · intro _
      cases n with
      | zero => simp [Limiter.takeMultiAt, threeLoads]
      | succ n =>
        have h6 := i6 (by omega)
        rw [List.getLast?_append, h6]
        simp

/-- C1 (amended). On a store whose SCRIPT LOAD always succeeds: a batch whose
every round trip passes the error test and finds a procedure missing (so it
holds at least one `Allow` or `Take`) makes `Exec` return `ErrTooManyRetries`
after exactly 11 round trips, all with the same commands, and exactly 11 calls
of `LoadScripts` (11 SCRIPT LOAD of each procedure), the last of which is the
last store interaction; no handle is modified.  The same holds for the single
call `Take` when every round trip reports no error and its probe answers
`false`. -/
theorem missing_procedure_gives_up {F σ : Type} (fo : Float64Ops F) (st : Store F σ)
    (p : pipeline) (tk : Limiter) (key requestID : String) (limit : ConcurrencyLimit) (s : σ)
    (hl : ∀ t sc, ∃ sha, (st.scriptLoad t sc).2 = .ok sha) :
    ((∀ t, roundTripFailure (st.roundTrip t (p.commands fo)).2.err = none ∧
        checkProbes ((List.range p.scriptExistChecks).map
          (st.roundTrip t (p.commands fo)).2.probe) = .missing) →
      (p.Exec fo st s).ret = .err .ErrTooManyRetries ∧
      (p.Exec fo st s).p = p ∧
      roundTrips (p.Exec fo st s).trace = 11 ∧
      (∀ sc, scriptLoads sc (p.Exec fo st s).trace = 11) ∧
      sentBatches (p.Exec fo st s).trace = List.replicate 11 (p.commands fo) ∧
      (p.Exec fo st s).trace.getLast? = some (.scriptLoad .allowAtMost)) ∧
    ((∀ t, (st.roundTrip t (tk.takeMultiCommands requestID [(key, limit)])).2.err = none ∧
        (st.roundTrip t (tk.takeMultiCommands requestID [(key, limit)])).2.probe 0 =
          .ok [false]) →
      (tk.Take st s key requestID limit).ret = .err .ErrTooManyRetries ∧
      roundTrips (tk.Take st s key requestID limit).trace = 11 ∧
      (∀ sc, scriptLoads sc (tk.Take st s key requestID limit).trace = 11) ∧
      sentBatches (tk.Take st s key requestID limit).trace =
        List.replicate 11 (tk.takeMultiCommands requestID [(key, limit)]) ∧
      (tk.Take st s key requestID limit).trace.getLast? = some (.scriptLoad .allowAtMost)) := by
  constructor
  · intro hm
    obtain ⟨h1, h2, h3, h4, h5, h6⟩ := execAt_always_missing fo st p hm hl 11 s
    exact ⟨h1, h2, h3, h4, h5, h6 (by omega)⟩
  · intro hm
    obtain ⟨h1, h3, h4, h5, h6⟩ :=
      takeMultiAt_always_missing st tk requestID [(key, limit)] (by simp) hm hl 11 s
    have hr : (tk.takeMulti st s requestID [(key, limit)] 0).ret = .err .ErrTooManyRetries := h1
    have ht : (tk.Take st s key requestID limit).trace =
        (Limiter.takeMultiAt st tk requestID [(key, limit)] 11 s).trace := by
      unfold Limiter.Take
      simp only [hr]
      rfl
    have hret : (tk.Take st s key requestID limit).ret = .err .ErrTooManyRetries := by
      unfold Limiter.Take
      simp only [hr]
    rw [ht]
    exact ⟨hret, h3, h4, h5, h6 (by omega)⟩

/-- C1, witness: `silentStore` reports the procedure missing on every attempt. -/
theorem missing_procedure_gives_up_witness :
    (∀ (t : Unit) (sc : Script), ∃ sha, (silentStore.scriptLoad t sc).2 = .ok sha) ∧
    ((oneTake.Exec wholeSeconds silentStore ()).ret = .err .ErrTooManyRetries ∧
      (oneTake.Exec wholeSeconds silentStore ()).p = oneTake ∧
      roundTrips (oneTake.Exec wholeSeconds silentStore ()).trace = 11 ∧
      (∀ sc, scriptLoads sc (oneTake.Exec wholeSeconds silentStore ()).trace = 11) ∧
      sentBatches (oneTake.Exec wholeSeconds silentStore ()).trace =
        List.replicate 11 (oneTake.commands wholeSeconds) ∧
      (oneTake.Exec wholeSeconds silentStore ()).trace.getLast? =
        some (.scriptLoad .allowAtMost)) ∧
    ((New.Take silentStore () "k" "r" { Max := 1, RequestMaxDuration := 0 }).ret =
        .err .ErrTooManyRetries ∧
      roundTrips (New.Take silentStore () "k" "r" { Max := 1, RequestMaxDuration := 0 }).trace
        = 11 ∧
      (∀ sc, scriptLoads sc
        (New.Take silentStore () "k" "r" { Max := 1, RequestMaxDuration := 0 }).trace = 11) ∧
      sentBatches (New.Take silentStore () "k" "r" { Max := 1, RequestMaxDuration := 0 }).trace =
        List.replicate 11
          (New.takeMultiCommands "r" [("k", { Max := 1, RequestMaxDuration := 0 })]) ∧
      (New.Take silentStore () "k" "r" { Max := 1, RequestMaxDuration := 0 }).trace.getLast? =
        some (.scriptLoad .allowAtMost)) :=
  have hl : ∀ (t : Unit) (sc : Script), ∃ sha, (silentStore.scriptLoad t sc).2 = .ok sha :=
    fun _ _ => ⟨"sha", rfl⟩
  ⟨hl,
    (missing_procedure_gives_up wholeSeconds silentStore oneTake New "k" "r"
      { Max := 1, RequestMaxDuration := 0 } () hl).1 (fun _ => ⟨rfl, rfl⟩),
    (missing_procedure_gives_up wholeSeconds silentStore oneTake New "k" "r"
      { Max := 1, RequestMaxDuration := 0 } () hl).2 (fun _ => ⟨rfl, rfl⟩)⟩

/-- C1, counterexample: on `forgetfulStore`, where every probe answers `false`,
`Exec` on a batch of one `Take` returns `ErrTooManyRetries` after 11 calls of
`LoadScripts` and 11 round trips, not 10. -/
theorem gives_up_after_eleven_loads :
    (oneTake.Exec wholeSeconds forgetfulStore ()).ret = .err .ErrTooManyRetries ∧
    scriptLoads .concurrencyTake (oneTake.Exec wholeSeconds forgetfulStore ()).trace = 11 ∧
    roundTrips (oneTake.Exec wholeSeconds forgetfulStore ()).trace = 11 ∧
    ¬ (scriptLoads .concurrencyTake (oneTake.Exec wholeSeconds forgetfulStore ()).trace = 10) := by
  decide

theorem execBody_trace_head {F σ : Type} (fo : Float64Ops F) (st : Store F σ)
    (again : pipeline → σ → ExecResult F σ) (p : pipeline) (s : σ) (hc : p.commands fo ≠ []) :
    ∃ rest, (pipeline.execBody fo st again p s).trace =
      Event.roundTrip (p.commands fo) (st.roundTrip s (p.commands fo)).2 :: rest := by
  simp only [pipeline.execBody, pipeExec_cons st s _ hc]
  cases roundTripFailure (st.roundTrip s (p.commands fo)).2.err with
  | some e => exact ⟨[], rfl⟩
  | none =>
    cases checkProbes ((List.range p.scriptExistChecks).map
        (st.roundTrip s (p.commands fo)).2.probe) with
    | fail e => exact ⟨[], rfl⟩
    | present => exact ⟨[], rfl⟩
    | missing =>
      cases (Limiter.LoadScripts st (st.roundTrip s (p.commands fo)).1).2.1 with
      | some e => exact ⟨_, rfl⟩
      | none => exact ⟨_, rfl⟩

/-- C6 (amended). When an attempt of `Exec` (at a depth within the bound) gets
through the error test of its round trip and finds a procedure missing, it
behaves as `ReloadsThenResubmits` says: it modifies no handle and calls
`LoadScripts`, which registers the lease, rate and partial-rate procedures in
this order up to the first failure; if a registration fails the error is
returned and nothing is resubmitted; if all three succeed, the attempt at the
next depth runs on the unmodified pipeline, which below depth 10 starts with a
round trip of exactly the same commands and at depth 10 returns
`ErrTooManyRetries` with no store interaction; the handles are either as
queued or filled once, from the answer of the last round trip. -/
theorem missing_probe_reloads {F σ : Type} (fo : Float64Ops F) (st : Store F σ)
    (p : pipeline) (s : σ) (depth : Nat) (hd : depth ≤ 10)
    (hf : roundTripFailure (st.roundTrip s (p.commands fo)).2.err = none)
    (hm : checkProbes ((List.range p.scriptExistChecks).map
      (st.roundTrip s (p.commands fo)).2.probe) = .missing) :
    ReloadsThenResubmits fo st p s depth := by
  have hc : p.commands fo ≠ [] := by
    apply scriptExistChecks_pos
    by_contra h0
    have : p.scriptExistChecks = 0 := by omega
    rw [this] at hm
    simp [checkProbes] at hm
  have hfin : (p.exec fo st s depth).p = p ∨
      (p.exec fo st s depth).p = (p.finish fo (finalAnswer (p.exec fo st s depth).trace)).2 := by
    unfold pipeline.exec
    rcases execAt_final fo st (11 - depth) p s with h | ⟨_, _, h⟩
    · exact Or.inl h.1
    · exact Or.inr h
  obtain ⟨hn, hall⟩ := LoadScripts_trace st (st.roundTrip s (p.commands fo)).1
  unfold ReloadsThenResubmits
  simp only []
  refine ⟨?_, hn, ?_, ?_, hfin⟩
  · rw [exec_succ fo st p s depth hd, execBody_missing fo st _ p s hf hm]
    cases (Limiter.LoadScripts st (st.roundTrip s (p.commands fo)).1).2.1 with
    | some e => exact ⟨[], by simp⟩
    | none => exact ⟨_, rfl⟩
  · intro e he
    rw [exec_succ fo st p s depth hd, execBody_missing fo st _ p s hf hm, he]
    exact ⟨rfl, rfl, rfl⟩
  · intro he
    rw [exec_succ fo st p s depth hd, execBody_missing fo st _ p s hf hm, he]
    refine ⟨hall he, rfl, rfl, rfl, rfl, ?_, ?_⟩
    · intro hlt
      rw [exec_succ fo st p _ (depth + 1) (by omega)]
      obtain ⟨rest, hr⟩ := execBody_trace_head fo st
        (fun q t => q.exec fo st t (depth + 1 + 1)) p
        (Limiter.LoadScripts st (st.roundTrip s (p.commands fo)).1).1 hc
      exact ⟨_, rest, hr⟩
    · intro heq
      rw [exec_too_deep fo st p _ (depth + 1) (by omega)]
      exact ⟨rfl, rfl, rfl⟩

/-- C6, witness: on `coldStore`, started with no procedure registered, the
first attempt of the batch of one `Take` finds the lease procedure missing. -/
theorem missing_probe_reloads_witness :
    (0 ≤ 10 ∧
      roundTripFailure (coldStore.roundTrip false (oneTake.commands wholeSeconds)).2.err = none ∧
      checkProbes ((List.range oneTake.scriptExistChecks).map
        (coldStore.roundTrip false (oneTake.commands wholeSeconds)).2.probe) = .missing) ∧
    ReloadsThenResubmits wholeSeconds coldStore oneTake false 0 :=
  ⟨⟨by decide, by decide, by decide⟩,
    missing_probe_reloads wholeSeconds coldStore oneTake false 0 (by decide) (by decide)
      (by decide)⟩

/-- C6, counterexample: on `forgetfulStore` the attempt of `exec` at depth 10
(the eleventh attempt of `Exec`) finds the lease procedure missing and loads
the three procedures, but resubmits nothing: its own round trip is the only
one, and `Exec` as a whole ends with that SCRIPT LOAD. -/
theorem eleventh_attempt_does_not_resubmit :
    checkProbes ((List.range oneTake.scriptExistChecks).map
      (forgetfulStore.roundTrip () (oneTake.commands wholeSeconds)).2.probe) = .missing ∧
    (oneTake.exec wholeSeconds forgetfulStore () 10).trace =
      Event.roundTrip (oneTake.commands wholeSeconds)
        (forgetfulStore.roundTrip () (oneTake.commands wholeSeconds)).2 :: threeLoads Int ∧
    roundTrips (oneTake.exec wholeSeconds forgetfulStore () 10).trace = 1 ∧
    (oneTake.exec wholeSeconds forgetfulStore () 10).ret = .err .ErrTooManyRetries ∧
    (oneTake.Exec wholeSeconds forgetfulStore ()).trace.getLast? =
      some (.scriptLoad .allowAtMost) := by
  decide

/-! ## The lease TTL -/

theorem wrap64_id (x : Int) (h0 : -9223372036854775808 ≤ x) (h1 : x ≤ 9223372036854775807) :
    wrap64 x = x := by
  unfold wrap64; omega

theorem Round_nonneg (d : Int) (h0 : 0 ≤ d) (h1 : d ≤ maxInt64) :
    Duration.Round d Second =
      if d % 1000000000 * 2 < 1000000000 then d - d % 1000000000
      else if d + 1000000000 - d % 1000000000 ≤ 9223372036854775807 then
        d + 1000000000 - d % 1000000000
      else 9223372036854775807 := by
  unfold maxInt64 at h1
  have ht : Int.tmod d 1000000000 = d % 1000000000 := Int.tmod_eq_emod h0 (by omega)
  simp only [Duration.Round, Second, lessThanHalf, toUint64, wrap64, ht, maxInt64,
    decide_eq_true_eq]
  split_ifs <;> omega

theorem Round_neg (d : Int) (h0 : d < 0) (h1 : minInt64 ≤ d) :
    Duration.Round d Second ≤ 0 := by
  unfold minInt64 at h1
  have ht : Int.tmod d 1000000000 = -((-d) % 1000000000) := by
    have h2 : Int.tmod (-d) 1000000000 = (-d) % 1000000000 :=
      Int.tmod_eq_emod (by omega) (by omega)
    have h3 := Int.tmod_def d 1000000000
    have h4 := Int.tmod_def (-d) 1000000000
    rw [Int.neg_tdiv] at h4
    omega
  have hr0 : 0 ≤ (-d) % 1000000000 := by omega
  have hr1 : (-d) % 1000000000 < 1000000000 := by omega
  have hr2 : (-d) % 1000000000 ≤ -d := by omega
  generalize (-d) % 1000000000 = r at ht hr0 hr1 hr2
  have hw : wrap64 (- -r) = r := by rw [Int.neg_neg]; exact wrap64_id r (by omega) (by omega)
  have hs : wrap64 (d + r) = d + r := wrap64_id _ (by omega) (by omega)
  simp only [Duration.Round, Second, ht, hw, hs, minInt64]
  split_ifs <;> omega

theorem tdiv_second_nonpos (x : Int) (h : x ≤ 0) : Int.tdiv x Second ≤ 0 := by
  have h1 : Int.tdiv (-(-x)) Second = -(Int.tdiv (-x) Second) := Int.neg_tdiv _ _
  rw [Int.neg_neg] at h1
  have h2 : 0 ≤ Int.tdiv (-x) Second := Int.tdiv_nonneg (by omega) (by unfold Second; omega)
  omega

/-- The value of `reqPeriod` after the default is applied. -/
theorem reqPeriod_value (d : Int) (hlo : minInt64 ≤ d) (hhi : d ≤ maxInt64) :
    (if Int.tdiv (Duration.Round d Second) Second ≤ 0 then 60
      else Int.tdiv (Duration.Round d Second) Second) =
    if d < 500000000 then 60 else min ((d + 500000000) / 1000000000) 9223372036 := by
  by_cases hneg : d < 0
  · have h1 := tdiv_second_nonpos _ (Round_neg d hneg hlo)
    rw [if_pos h1, if_pos (by omega)]
  · have h0 : 0 ≤ d := by omega
    have hR := Round_nonneg d h0 hhi
    have hRn : 0 ≤ Duration.Round d Second := by
      rw [hR]; unfold maxInt64 at hhi; split_ifs <;> omega
    have hdiv : Int.tdiv (Duration.Round d Second) Second = Duration.Round d Second / 1000000000 :=
      Int.tdiv_eq_ediv hRn (by unfold Second; omega)
    rw [hdiv, hR]
    unfold maxInt64 at hhi
    split_ifs <;> omega

/-- C8, witness: on `wrongTypeStore` the round trip of the batch of two
`Allow`s fails with the WRONGTYPE error of its second invocation. -/
theorem exec_roundTrip_error_witness :
    (0 ≤ 10 ∧ twoAllows.commands wholeSeconds ≠ [] ∧
      (wrongTypeStore.roundTrip () (twoAllows.commands wholeSeconds)).2.err =
        some (.reply "WRONGTYPE Operation against a key holding the wrong kind of value") ∧
      HasErrorPrefix (.reply "WRONGTYPE Operation against a key holding the wrong kind of value")
        "NOSCRIPT" = false) ∧
    ((twoAllows.exec wholeSeconds wrongTypeStore () 0).ret =
        .err (.reply "WRONGTYPE Operation against a key holding the wrong kind of value") ∧
      (twoAllows.exec wholeSeconds wrongTypeStore () 0).p = twoAllows ∧
      (twoAllows.exec wholeSeconds wrongTypeStore () 0).trace =
        [Event.roundTrip (twoAllows.commands wholeSeconds)
          (wrongTypeStore.roundTrip () (twoAllows.commands wholeSeconds)).2] ∧
      roundTrips (twoAllows.exec wholeSeconds wrongTypeStore () 0).trace = 1 ∧
      (∀ sc, scriptLoads sc (twoAllows.exec wholeSeconds wrongTypeStore () 0).trace = 0)) :=
  ⟨⟨by decide, by decide, by decide, by decide⟩,
    exec_roundTrip_error wholeSeconds wrongTypeStore twoAllows () 0
      (.reply "WRONGTYPE Operation against a key holding the wrong kind of value")
      (by decide) (by decide) (by decide) (by decide)⟩

/-- C5, at the failing input.  On `coldStore`, started with no procedure
registered, the single call and the batch of one `Take` send the same commands
and get the same answer: the probe says `false` and the round trip reports the
NOSCRIPT error of the invocation.  `Take` returns that error at once, with no
reload; `Exec` reloads the procedures, resubmits, returns nil and fills its
handle. -/
theorem take_returns_noscript_where_exec_recovers :
    oneTake.commands wholeSeconds =
      New.takeMultiCommands "r" [("k", { Max := 1, RequestMaxDuration := 5000000000 })] ∧
    (coldStore.roundTrip false (oneTake.commands wholeSeconds)).2 =
      { err := some noScript, probes := [.ok [false]], evals := [.error noScript] } ∧
    HasErrorPrefix noScript "NOSCRIPT" = true ∧
    (New.Take coldStore false "k" "r" { Max := 1, RequestMaxDuration := 5000000000 }).ret =
      .err noScript ∧
    roundTrips
      (New.Take coldStore false "k" "r" { Max := 1, RequestMaxDuration := 5000000000 }).trace = 1 ∧
    scriptLoads .concurrencyTake
      (New.Take coldStore false "k" "r" { Max := 1, RequestMaxDuration := 5000000000 }).trace = 0 ∧
    (oneTake.Exec wholeSeconds coldStore false).ret = .nil ∧
    roundTrips (oneTake.Exec wholeSeconds coldStore false).trace = 2 ∧
    scriptLoads .concurrencyTake (oneTake.Exec wholeSeconds coldStore false).trace = 1 ∧
    (oneTake.Exec wholeSeconds coldStore false).p.takeCommands =
      [{ Key := "k", RequestID := "r", Limit := { Max := 1, RequestMaxDuration := 5000000000 },
         Allowed := true, Used := 1, Remaining := 0 }] := by
  decide

theorem takeMultiAt_trace_head {F σ : Type} (st : Store F σ) (tk : Limiter) (requestID : String)
    (limits : List (String × ConcurrencyLimit)) (hne : limits ≠ []) (n : Nat) (s : σ) :
    ∃ rest, (Limiter.takeMultiAt st tk requestID limits (n + 1) s).trace =
      Event.roundTrip (tk.takeMultiCommands requestID limits)
        (st.roundTrip s (tk.takeMultiCommands requestID limits)).2 :: rest := by
  have hlen : limits.length ≠ 0 := by
    intro h0; exact hne (List.length_eq_zero.mp h0)
  simp only [Limiter.takeMultiAt, Limiter.takeMultiBody, hlen, if_false,
    pipeExec_cons st s _ (takeMultiCommands_ne_nil tk requestID limits)]
  generalize st.roundTrip s _ = x
  cases hE : x.2.err with
  | some e => exact ⟨[], rfl⟩
  | none =>
    simp only []
    cases hP : x.2.probe 0 with
    | error e => exact ⟨[], rfl⟩
    | ok bs =>
      match bs, hP with
      | [], hP => exact ⟨[], rfl⟩
      | _ :: _ :: _, hP => exact ⟨[], rfl⟩
      | [true], hP => exact ⟨[], rfl⟩
      | [false], hP =>
        simp only [Bool.not_false, ↓reduceIte]
        cases hL : (Limiter.LoadScripts st x.1).2.1 with
        | some e => exact ⟨_, rfl⟩
        | none => exact ⟨_, rfl⟩

theorem Take_trace {F σ : Type} (st : Store F σ) (tk : Limiter) (s : σ)
    (key requestID : String) (limit : ConcurrencyLimit) :
    (tk.Take st s key requestID limit).trace =
      (Limiter.takeMultiAt st tk requestID [(key, limit)] 11 s).trace := by
  unfold Limiter.Take Limiter.takeMulti
  simp only []
  cases h : (Limiter.takeMultiAt st tk requestID [(key, limit)] (11 - 0) s).ret <;> rfl

/-- C7 (amended). The lease TTL that `Take` sends, single-call (the first
round trip of `Limiter.Take`) or batched (the invocation `takePipe` queues for
the handle, which the first round trip of `Exec` carries), is the third
argument `ttl` of the invocation, in seconds.  For an int64
`RequestMaxDuration` it is 60 when `RequestMaxDuration` is zero, negative, or
positive but below half a second; from half a second on it is
`RequestMaxDuration` rounded to the nearest whole second, halves rounded up,
capped at 9223372036; in particular it is `RequestMaxDuration` itself when that
is a positive whole number of seconds. -/
theorem lease_ttl_sent {F σ : Type} (fo : Float64Ops F) (st : Store F σ) (s : σ)
    (p : pipeline) (tk : Limiter) (key requestID : String) (limit : ConcurrencyLimit)
    (hlo : minInt64 ≤ limit.RequestMaxDuration) (hhi : limit.RequestMaxDuration ≤ maxInt64) :
    ∃ ttl : Int,
      (∃ rest, (tk.Take st s key requestID limit).trace =
        Event.roundTrip
          [.scriptExists .concurrencyTake,
           .evalSha .concurrencyTake (tk.concurrentPrefix ++ key)
             [.str requestID, .int limit.Max, .int ttl]]
          (st.roundTrip s (tk.takeMultiCommands requestID [(key, limit)])).2 :: rest) ∧
      ((p.Take key requestID limit).1.takePipe (F := F) (p.Take key requestID limit).2).1 =
        .evalSha .concurrencyTake (p.l.concurrentPrefix ++ key)
          [.str requestID, .int limit.Max, .int ttl] ∧
      ((p.Take key requestID limit).1.takePipe (F := F) (p.Take key requestID limit).2).1 ∈
        (p.Take key requestID limit).1.commands fo ∧
      (∃ rest, ((p.Take key requestID limit).1.Exec fo st s).trace =
        Event.roundTrip ((p.Take key requestID limit).1.commands fo)
          (st.roundTrip s ((p.Take key requestID limit).1.commands fo)).2 :: rest) ∧
      (limit.RequestMaxDuration ≤ 0 → ttl = 60) ∧
      (0 < limit.RequestMaxDuration → limit.RequestMaxDuration < 500000000 → ttl = 60) ∧
      (500000000 ≤ limit.RequestMaxDuration →
        ttl = min ((limit.RequestMaxDuration + 500000000) / 1000000000) 9223372036) ∧
      (∀ k : Int, 0 < k → limit.RequestMaxDuration = k * Second → ttl = k) := by
  have hv := reqPeriod_value limit.RequestMaxDuration hlo hhi
  refine ⟨if limit.RequestMaxDuration < 500000000 then 60
    else min ((limit.RequestMaxDuration + 500000000) / 1000000000) 9223372036,
    ?_, ?_, ?_, ?_, ?_, ?_, ?_, ?_⟩
  · rw [Take_trace]
    obtain ⟨rest, hr⟩ := takeMultiAt_trace_head st tk requestID [(key, limit)] (by simp) 10 s
    refine ⟨rest, ?_⟩
    rw [hr]
    simp only [Limiter.takeMultiCommands, List.map_cons, List.map_nil, hv]
  · simp only [pipeline.takePipe, pipeline.Take, hv]
  · have hmem : (p.Take key requestID limit).2 ∈ (p.Take key requestID limit).1.takeCommands := by
      simp [pipeline.Take]
    have hpos : (p.Take key requestID limit).1.takeCommands.length > 0 :=
      List.length_pos_of_mem hmem
    unfold pipeline.commands
    rw [if_pos hpos]
    apply List.mem_append_left
    apply List.mem_append_right
    exact List.mem_cons_of_mem _ (List.mem_map_of_mem _ hmem)
  · have hc : (p.Take key requestID limit).1.commands fo ≠ [] := by
      intro h0
      have := (commands_eq_nil fo _ h0).2
      simp [pipeline.Take] at this
    unfold pipeline.Exec
    rw [exec_succ fo st _ s 0 (by omega)]
    exact execBody_trace_head fo st _ _ s hc
  · intro h; rw [if_pos (by omega)]
  · intro _ h; rw [if_pos h]
  · intro h; rw [if_neg (by omega)]
  · intro k hk hd
    unfold Second at hd
    unfold maxInt64 at hhi
    split_ifs <;> omega

/-- C7, witness: a limit of five seconds. -/
theorem lease_ttl_sent_witness :
    (minInt64 ≤ (5000000000 : Int) ∧ (5000000000 : Int) ≤ maxInt64) ∧
    ∃ ttl : Int,
      ((New.Pipeline.Take "k" "r" { Max := 1, RequestMaxDuration := 5000000000 }).1.takePipe
          (F := Int)
          (New.Pipeline.Take "k" "r" { Max := 1, RequestMaxDuration := 5000000000 }).2).1 =
        .evalSha .concurrencyTake "concurrency:k" [.str "r", .int 1, .int ttl] ∧
      ttl = 5 := by
  refine ⟨⟨by decide, by decide⟩, ?_⟩
  obtain ⟨ttl, _, h2, _, _, _, _, _, h8⟩ :=
    lease_ttl_sent wholeSeconds coldStore true New.Pipeline New "k" "r"
      { Max := 1, RequestMaxDuration := 5000000000 } (by decide) (by decide)
  exact ⟨ttl, h2, h8 5 (by decide) (by decide)⟩

/-- C7, counterexample: for the positive `RequestMaxDuration` of 400ms the TTL
sent is 60 seconds, and for 1.5s it is 2 seconds; neither is
`RequestMaxDuration` itself. -/
theorem lease_ttl_of_fractional_duration :
    (0 : Int) < 400000000 ∧
    (New.takeMultiCommands "r" [("k", { Max := 1, RequestMaxDuration := 400000000 })] :
        List (Cmd Int)) =
      [.scriptExists .concurrencyTake,
       .evalSha .concurrencyTake "concurrency:k" [.str "r", .int 1, .int 60]] ∧
    ((New.Pipeline.Take "k" "r" { Max := 1, RequestMaxDuration := 400000000 }).1.takePipe
        (F := Int)
        (New.Pipeline.Take "k" "r" { Max := 1, RequestMaxDuration := 400000000 }).2).1 =
      .evalSha .concurrencyTake "concurrency:k" [.str "r", .int 1, .int 60] ∧
    (60 : Int) * Second ≠ 400000000 ∧
    (New.takeMultiCommands "r" [("k", { Max := 1, RequestMaxDuration := 1500000000 })] :
        List (Cmd Int)) =
      [.scriptExists .concurrencyTake,
       .evalSha .concurrencyTake "concurrency:k" [.str "r", .int 1, .int 2]] ∧
    (2 : Int) * Second ≠ 1500000000 := by
  decide

/-! ## Decoding replies -/

/-- C9 (amended). What decoding a reply does, for every reply; the decoders
test neither the number of values nor their types.

Rate (`parseScriptResult`, reached from the closure of `allowPipe` and from
`AllowN`), in the order of the source: the third value is read first and the
decoder panics when it is absent or not a string, and returns the parse error
when it is a string that is not a float, whatever the other values are; then
the fourth value, in the same way; then the first and the second value, and
the decoder panics when one of them is not an integer; otherwise the `Result`
is populated and values beyond the fourth are ignored.

Lease (the closure of `takePipe` and the loop of `takeMulti`): the decoder
panics when the first or the second value is absent or not an integer;
otherwise the `ConcurrencyResult` is populated and values beyond the second are
ignored.

In all four places a reply that is not an array makes the decoder panic, and
an error reply is returned as the error. -/
theorem decode_outcomes {F σ : Type} (fo : Float64Ops F) (st : Store F σ) (s : σ)
    (p : pipeline) (l : Limiter) (rv : Result) (cv : ConcurrencyResult)
    (requestID key : String) (limit : ConcurrencyLimit) (rlimit : Limit) (n : Int)
    (evals : Nat → Except Err Reply) :
    -- rate: the third value
    (∀ values, values.length < 3 → rv.parseScriptResult fo values = .panic) ∧
    (∀ a b c rest, (∀ t, c ≠ Item.str t) →
      rv.parseScriptResult fo (a :: b :: c :: rest) = .panic) ∧
    (∀ a b s2 rest m, fo.ParseFloat s2 = .error m →
      rv.parseScriptResult fo (a :: b :: .str s2 :: rest) = .err (.parse m)) ∧
    -- rate: the fourth value
    (∀ a b s2 x, fo.ParseFloat s2 = .ok x →
      rv.parseScriptResult fo [a, b, .str s2] = .panic) ∧
    (∀ a b s2 d rest x, fo.ParseFloat s2 = .ok x → (∀ t, d ≠ Item.str t) →
      rv.parseScriptResult fo (a :: b :: .str s2 :: d :: rest) = .panic) ∧
    (∀ a b s2 s3 rest x m, fo.ParseFloat s2 = .ok x → fo.ParseFloat s3 = .error m →
      rv.parseScriptResult fo (a :: b :: .str s2 :: .str s3 :: rest) = .err (.parse m)) ∧
    -- rate: the first and the second value
    (∀ a b s2 s3 rest x y, fo.ParseFloat s2 = .ok x → fo.ParseFloat s3 = .ok y →
      (∀ i, a ≠ Item.int i) →
      rv.parseScriptResult fo (a :: b :: .str s2 :: .str s3 :: rest) = .panic) ∧
    (∀ a b s2 s3 rest x y, fo.ParseFloat s2 = .ok x → fo.ParseFloat s3 = .ok y →
      (∀ i, b ≠ Item.int i) →
      rv.parseScriptResult fo (.int a :: b :: .str s2 :: .str s3 :: rest) = .panic) ∧
    (∀ a b s2 s3 rest x y, fo.ParseFloat s2 = .ok x → fo.ParseFloat s3 = .ok y →
      rv.parseScriptResult fo (.int a :: .int b :: .str s2 :: .str s3 :: rest) =
        .ok { rv with Allowed := a, Remaining := b, Used := 0,
                      RetryAfter := dur fo x, ResetAfter := dur fo y }) ∧
    -- rate: the closure of `allowPipe`
    (∀ values, (p.allowPipe fo rv).2 (.ok (.array values)) = rv.parseScriptResult fo values) ∧
    (∀ x, (p.allowPipe fo rv).2 (.ok (.single x)) = .panic) ∧
    (∀ e, (p.allowPipe fo rv).2 (.error e) = .err e) ∧
    -- rate: `AllowN`
    (∀ values, (Script.Run st s .allowN (l.ratePrefix ++ key)
        [.int rlimit.Burst, .int rlimit.Rate, .float (fo.Seconds rlimit.Period), .int n]).2.1 =
          .ok (.array values) →
      (l.AllowN fo st s key rlimit n).ret =
        Result.parseScriptResult fo
          { Key := key, Limit := rlimit, Allowed := 0, Used := 0, Remaining := 0,
            RetryAfter := 0, ResetAfter := 0 } values) ∧
    (∀ x, (Script.Run st s .allowN (l.ratePrefix ++ key)
        [.int rlimit.Burst, .int rlimit.Rate, .float (fo.Seconds rlimit.Period), .int n]).2.1 =
          .ok (.single x) →
      (l.AllowN fo st s key rlimit n).ret = .panic) ∧
    (∀ e, (Script.Run st s .allowN (l.ratePrefix ++ key)
        [.int rlimit.Burst, .int rlimit.Rate, .float (fo.Seconds rlimit.Period), .int n]).2.1 =
          .error e →
      (l.AllowN fo st s key rlimit n).ret = .err e) ∧
    -- lease: the closure of `takePipe`
    (∀ values, values.length < 2 → (p.takePipe (F := F) cv).2 (.ok (.array values)) = .panic) ∧
    (∀ a rest, (∀ i, a ≠ Item.int i) →
      (p.takePipe (F := F) cv).2 (.ok (.array (a :: rest))) = .panic) ∧
    (∀ a b rest, (∀ i, b ≠ Item.int i) →
      (p.takePipe (F := F) cv).2 (.ok (.array (.int a :: b :: rest))) = .panic) ∧
    (∀ ok current rest,
      (p.takePipe (F := F) cv).2 (.ok (.array (.int ok :: .int current :: rest))) =
        .ok { cv with Allowed := decide (ok = 1), Used := current,
                      Remaining := sub64 cv.Limit.Max current }) ∧
    (∀ x, (p.takePipe (F := F) cv).2 (.ok (.single x)) = .panic) ∧
    (∀ e, (p.takePipe (F := F) cv).2 (.error e) = .err e) ∧
    -- lease: the loop of `takeMulti`
    (∀ values, evals 0 = .ok (.array values) → values.length < 2 →
      decodeTakes requestID evals [(key, limit)] 0 [] = .panic) ∧
    (∀ a rest, evals 0 = .ok (.array (a :: rest)) → (∀ i, a ≠ Item.int i) →
      decodeTakes requestID evals [(key, limit)] 0 [] = .panic) ∧
    (∀ a b rest, evals 0 = .ok (.array (.int a :: b :: rest)) → (∀ i, b ≠ Item.int i) →
      decodeTakes requestID evals [(key, limit)] 0 [] = .panic) ∧
    (∀ ok current rest, evals 0 = .ok (.array (.int ok :: .int current :: rest)) →
      decodeTakes requestID evals [(key, limit)] 0 [] =
        .ok [(key, { Key := key, RequestID := requestID, Limit := limit,
                     Allowed := decide (ok = 1), Used := current,
                     Remaining := sub64 limit.Max current })]) ∧
    (∀ x, evals 0 = .ok (.single x) →
      decodeTakes requestID evals [(key, limit)] 0 [] = .panic) ∧
    (∀ e, evals 0 = .error e →
      decodeTakes requestID evals [(key, limit)] 0 [] = .err e) := by
  refine ⟨?_, ?_, ?_, ?_, ?_, ?_, ?_, ?_, ?_, ?_, ?_, ?_, ?_, ?_, ?_, ?_, ?_, ?_, ?_, ?_, ?_,
    ?_, ?_, ?_, ?_, ?_, ?_⟩
  · intro values h
    match values, h with
    | [], _ => simp [Result.parseScriptResult]
    | [_], _ => simp [Result.parseScriptResult]
    | [_, _], _ => simp [Result.parseScriptResult]
    | _ :: _ :: _ :: _, h => simp at h; omega
  · intro a b c rest hc
    cases c with
    | str t => exact absurd rfl (hc t)
    | int i => simp [Result.parseScriptResult]
    | nil => simp [Result.parseScriptResult]
    | other => simp [Result.parseScriptResult]
  · intro a b s2 rest m hm
    simp [Result.parseScriptResult, hm]
  · intro a b s2 x hx
    simp [Result.parseScriptResult, hx]
  · intro a b s2 d rest x hx hd
    cases d with
    | str t => exact absurd rfl (hd t)
    | int i => simp [Result.parseScriptResult, hx]
    | nil => simp [Result.parseScriptResult, hx]
    | other => simp [Result.parseScriptResult, hx]
  · intro a b s2 s3 rest x m hx hm
    simp [Result.parseScriptResult, hx, hm]
  · intro a b s2 s3 rest x y hx hy ha
    cases a with
    | int i => exact absurd rfl (ha i)
    | str t => simp [Result.parseScriptResult, hx, hy]
    | nil => simp [Result.parseScriptResult, hx, hy]
    | other => simp [Result.parseScriptResult, hx, hy]
  · intro a b s2 s3 rest x y hx hy hb
    cases b with
    | int i => exact absurd rfl (hb i)
    | str t => simp [Result.parseScriptResult, hx, hy]
    | nil => simp [Result.parseScriptResult, hx, hy]
    | other => simp [Result.parseScriptResult, hx, hy]
  · intro a b s2 s3 rest x y hx hy
    simp [Result.parseScriptResult, hx, hy]
  · intro values; rfl
  · intro x; rfl
  · intro e; rfl
  · intro values h
    simp only [Limiter.AllowN, h]
  · intro x h
    simp only [Limiter.AllowN, h]
  · intro e h
    simp only [Limiter.AllowN, h]
  · intro values h
    match values, h with
    | [], _ => simp [pipeline.takePipe]
    | [a], _ => cases a <;> simp [pipeline.takePipe]
    | _ :: _ :: _, h => simp at h; omega
  · intro a rest ha
    cases a with
    | int i => exact absurd rfl (ha i)
    | str t => simp [pipeline.takePipe]
    | nil => simp [pipeline.takePipe]
    | other => simp [pipeline.takePipe]
  · intro a b rest hb
    cases b with
    | int i => exact absurd rfl (hb i)
    | str t => simp [pipeline.takePipe]
    | nil => simp [pipeline.takePipe]
    | other => simp [pipeline.takePipe]
  · intro ok current rest
    simp [pipeline.takePipe]
  · intro x; rfl
  · intro e; rfl
  · intro values hev h
    match values, h, hev with
    | [], _, hev => simp [decodeTakes, hev]
    | [a], _, hev => cases a <;> simp [decodeTakes, hev]
    | _ :: _ :: _, h, _ => simp at h; omega
  · intro a rest hev ha
    cases a with
    | int i => exact absurd rfl (ha i)
    | str t => simp [decodeTakes, hev]
    | nil => simp [decodeTakes, hev]
    | other => simp [decodeTakes, hev]
  · intro a b rest hev hb
    cases b with
    | int i => exact absurd rfl (hb i)
    | str t => simp [decodeTakes, hev]
    | nil => simp [decodeTakes, hev]
    | other => simp [decodeTakes, hev]
  · intro ok current rest hev
    simp [decodeTakes, hev, mapSet]
  · intro x hev
    simp [decodeTakes, hev]
  · intro e hev
    simp [decodeTakes, hev]

/-- C9, counterexample: a rate reply with two values instead of four and a
lease reply whose first value is a string make the decoders panic: they
neither populate the result nor return an error. -/
theorem malformed_reply_panics :
    (twoAllows.allowPipe wholeSeconds
        { Key := "a", Limit := tenPerSecond, Allowed := 0, Used := 0, Remaining := 0,
          RetryAfter := 0, ResetAfter := 0 }).2 (.ok (.array [.int 1, .int 9])) = .panic ∧
    (oneTake.takePipe (F := Int)
        { Key := "k", RequestID := "r", Limit := { Max := 1, RequestMaxDuration := 5000000000 },
          Allowed := false, Used := 0, Remaining := 0 }).2
      (.ok (.array [.str "1", .int 1])) = .panic ∧
    ¬ ((∃ r, (twoAllows.allowPipe wholeSeconds
          { Key := "a", Limit := tenPerSecond, Allowed := 0, Used := 0, Remaining := 0,
            RetryAfter := 0, ResetAfter := 0 }).2 (.ok (.array [.int 1, .int 9])) = .ok r) ∨
       (∃ e, (twoAllows.allowPipe wholeSeconds
          { Key := "a", Limit := tenPerSecond, Allowed := 0, Used := 0, Remaining := 0,
            RetryAfter := 0, ResetAfter := 0 }).2 (.ok (.array [.int 1, .int 9])) = .err e)) := by
  have h0 : (twoAllows.allowPipe wholeSeconds
      { Key := "a", Limit := tenPerSecond, Allowed := 0, Used := 0, Remaining := 0,
        RetryAfter := 0, ResetAfter := 0 }).2 (.ok (.array [.int 1, .int 9])) = .panic := by
    decide
  refine ⟨h0, by decide, ?_⟩
  rw [h0]
  rintro (⟨r, h⟩ | ⟨e, h⟩)
  · exact Outcome.noConfusion h
  · exact Outcome.noConfusion h

/-! ## Leases -/

theorem append_left_cancel (a b c : String) (h : a ++ b = a ++ c) : b = c := by
  have h1 := congrArg String.data h
  simp only [String.data_append] at h1
  exact String.ext (List.append_cancel_left h1)

theorem leaseTake_used (leases : List String) (requestID : String) (max : Int) :
    (leaseTake leases requestID max).2.2 = ((leaseTake leases requestID max).1.length : Int) := by
  unfold leaseTake
  split_ifs <;> simp

theorem leaseTake_length (leases : List String) (requestID : String) (max B : Int)
    (h1 : (leases.length : Int) ≤ B) (h2 : max ≤ B) :
    ((leaseTake leases requestID max).1.length : Int) ≤ B := by
  unfold leaseTake
  split_ifs
  · exact h1
  · simp only [List.length_cons, Nat.cast_add, Nat.cast_one]; omega
  · exact h1

theorem leaseDrop_length (leases : List String) (requestID : String) :
    (leaseDrop leases requestID).length ≤ leases.length := by
  unfold leaseDrop
  exact List.length_filter_le _ _

/-- The single call `Take` on the lease store. -/
theorem Take_leaseStore (F : Type) (tk : Limiter) (s : Leases) (key requestID : String)
    (limit : ConcurrencyLimit) :
    (tk.Take (leaseStore F) s key requestID limit).ret =
      .ok { Key := key, RequestID := requestID, Limit := limit,
            Allowed := decide ((leaseTake (s (tk.concurrentPrefix ++ key)) requestID
              limit.Max).2.1 = 1),
            Used := (leaseTake (s (tk.concurrentPrefix ++ key)) requestID limit.Max).2.2,
            Remaining := sub64 limit.Max
              (leaseTake (s (tk.concurrentPrefix ++ key)) requestID limit.Max).2.2 } ∧
    (tk.Take (leaseStore F) s key requestID limit).store =
      s.set (tk.concurrentPrefix ++ key)
        (leaseTake (s (tk.concurrentPrefix ++ key)) requestID limit.Max).1 := by
  have h : tk.takeMulti (leaseStore F) s requestID [(key, limit)] 0 =
      Limiter.takeMultiBody (leaseStore F)
        (Limiter.takeMultiAt (leaseStore F) tk requestID [(key, limit)] 10) tk s requestID
        [(key, limit)] := rfl
  unfold Limiter.Take
  rw [h]
  simp [Limiter.takeMultiBody, Limiter.takeMultiCommands, pipeExec, leaseStore,
    sequentialStore, runCommands, leaseCommands, firstError, RoundTrip.probe, RoundTrip.eval,
    decodeTakes, mapSet, mapGet]

/-- The single call `Release` on the lease store. -/
theorem Release_leaseStore (F : Type) (tk : Limiter) (s : Leases) (key requestID : String)
    (limit : ConcurrencyLimit) :
    (tk.Release (leaseStore F) s key requestID limit).store =
      s.set (tk.concurrentPrefix ++ key) (leaseDrop (s (tk.concurrentPrefix ++ key)) requestID) := by
  simp [Limiter.Release, Limiter.releaseMulti, pipeExec, leaseStore, sequentialStore,
    runCommands, leaseCommands]

/-- A batch of one `Take` on the lease store. -/
theorem Exec_leaseStore {F : Type} (fo : Float64Ops F) (tk : Limiter) (s : Leases)
    (key requestID : String) (limit : ConcurrencyLimit) :
    ((tk.Pipeline.Take key requestID limit).1.Exec fo (leaseStore F) s).ret = .nil ∧
    ((tk.Pipeline.Take key requestID limit).1.Exec fo (leaseStore F) s).p.takeCommands =
      [{ Key := key, RequestID := requestID, Limit := limit,
         Allowed := decide ((leaseTake (s (tk.concurrentPrefix ++ key)) requestID
           limit.Max).2.1 = 1),
         Used := (leaseTake (s (tk.concurrentPrefix ++ key)) requestID limit.Max).2.2,
         Remaining := sub64 limit.Max
           (leaseTake (s (tk.concurrentPrefix ++ key)) requestID limit.Max).2.2 }] := by
  unfold pipeline.Exec
  rw [exec_succ fo (leaseStore F) _ s 0 (by omega)]
  simp [pipeline.execBody, pipeline.commands, pipeline.Take, Limiter.Pipeline,
    pipeline.takePipe, pipeline.scriptExistChecks, pipeExec, leaseStore, sequentialStore,
    runCommands, leaseCommands, firstError, roundTripFailure, checkProbes, RoundTrip.probe,
    RoundTrip.eval, pipeline.finish, runFinish, List.range_succ]

/-- On every reachable store state the key `k` holds at most `B` live leases. -/
theorem Reachable_count (F : Type) (tk : Limiter) (k : String) (B : Int) (h0 : 0 ≤ B)
    (s : Leases) (hr : Reachable F tk k B s) :
    ((s (tk.concurrentPrefix ++ k)).length : Int) ≤ B := by
  induction hr with
  | init => simpa using h0
  | take s key requestID limit _ hmax ih =>
    rw [(Take_leaseStore F tk s key requestID limit).2]
    unfold Leases.set
    by_cases hk : tk.concurrentPrefix ++ k = tk.concurrentPrefix ++ key
    · rw [if_pos hk]
      have hkey : key = k := (append_left_cancel _ _ _ hk).symm
      rw [← hk]
      exact leaseTake_length _ _ _ _ ih (hmax hkey)
    · rw [if_neg hk]; exact ih
  | release s key requestID limit _ ih =>
    rw [Release_leaseStore F tk s key requestID limit]
    unfold Leases.set
    by_cases hk : tk.concurrentPrefix ++ k = tk.concurrentPrefix ++ key
    · rw [if_pos hk, ← hk]
      have := leaseDrop_length (s (tk.concurrentPrefix ++ k)) requestID
      omega
    · rw [if_neg hk]; exact ih
  | expire s storeKey requestID _ ih =>
    unfold Leases.set
    by_cases hk : tk.concurrentPrefix ++ k = storeKey
    · rw [if_pos hk, ← hk]
      have := leaseDrop_length (s (tk.concurrentPrefix ++ k)) requestID
      omega
    · rw [if_neg hk]; exact ih

/-- The lease store reproduces the scenario of `TestTake` in
`concurrency_test.go`: with `Max = 1`, `req1` is allowed (used 1, remaining 0)
and `req2` denied (used 1, remaining 0); `req3` with `Max = 2` is allowed (used
2, remaining 0); after the release of `req1`, `req4` with `Max = 1` is denied
(used 1, remaining 0). -/
theorem leaseStore_TestTake :
    (New.Take (leaseStore Int) (fun _ => []) "test_id" "req1"
        { Max := 1, RequestMaxDuration := 5000000000 }).ret =
      .ok { Key := "test_id", RequestID := "req1",
            Limit := { Max := 1, RequestMaxDuration := 5000000000 },
            Allowed := true, Used := 1, Remaining := 0 } ∧
    (New.Take (leaseStore Int)
        (New.Take (leaseStore Int) (fun _ => []) "test_id" "req1"
          { Max := 1, RequestMaxDuration := 5000000000 }).store
        "test_id" "req2" { Max := 1, RequestMaxDuration := 5000000000 }).ret =
      .ok { Key := "test_id", RequestID := "req2",
            Limit := { Max := 1, RequestMaxDuration := 5000000000 },
            Allowed := false, Used := 1, Remaining := 0 } ∧
    (New.Take (leaseStore Int)
        (New.Take (leaseStore Int)
          (New.Take (leaseStore Int) (fun _ => []) "test_id" "req1"
            { Max := 1, RequestMaxDuration := 5000000000 }).store
          "test_id" "req2" { Max := 1, RequestMaxDuration := 5000000000 }).store
        "test_id" "req3" { Max := 2, RequestMaxDuration := 5000000000 }).ret =
      .ok { Key := "test_id", RequestID := "req3",
            Limit := { Max := 2, RequestMaxDuration := 5000000000 },
            Allowed := true, Used := 2, Remaining := 0 } ∧
    (New.Take (leaseStore Int)
        (New.Release (leaseStore Int)
          (New.Take (leaseStore Int)
            (New.Take (leaseStore Int)
              (New.Take (leaseStore Int) (fun _ => []) "test_id" "req1"
                { Max := 1, RequestMaxDuration := 5000000000 }).store
              "test_id" "req2" { Max := 1, RequestMaxDuration := 5000000000 }).store
            "test_id" "req3" { Max := 2, RequestMaxDuration := 5000000000 }).store
          "test_id" "req1" { Max := 1, RequestMaxDuration := 5000000000 }).store
        "test_id" "req4" { Max := 1, RequestMaxDuration := 5000000000 }).ret =
      .ok { Key := "test_id", RequestID := "req4",
            Limit := { Max := 1, RequestMaxDuration := 5000000000 },
            Allowed := false, Used := 1, Remaining := 0 } := by
  decide

/-- Where the bound does hold, with the lease procedure as the spec describes
it: on every store state reachable through `Take` and `Release` calls (and
lease expiry) in which no `Take` on this key was made with a `Limit.Max` larger
than the non-negative `Limit.Max` of this call, a `Take`, as a single call or
as a batch of one, succeeds with `Remaining >= 0`, `Used <= Limit.Max` and
`Remaining = Limit.Max - Used`. -/
theorem take_remaining_nonneg {F : Type} (fo : Float64Ops F) (tk : Limiter)
    (key requestID : String) (limit : ConcurrencyLimit) (s : Leases)
    (hr : Reachable F tk key limit.Max s) (h0 : 0 ≤ limit.Max) (h1 : limit.Max ≤ maxInt64) :
    (∃ cr, (tk.Take (leaseStore F) s key requestID limit).ret = .ok cr ∧
      0 ≤ cr.Remaining ∧ cr.Used ≤ cr.Limit.Max ∧ cr.Remaining = cr.Limit.Max - cr.Used) ∧
    (∃ cr, ((tk.Pipeline.Take key requestID limit).1.Exec fo (leaseStore F) s).ret = .nil ∧
      ((tk.Pipeline.Take key requestID limit).1.Exec fo (leaseStore F) s).p.takeCommands = [cr] ∧
      0 ≤ cr.Remaining ∧ cr.Used ≤ cr.Limit.Max ∧ cr.Remaining = cr.Limit.Max - cr.Used) := by
  have hc := Reachable_count F tk key limit.Max h0 s hr
  have hu := leaseTake_used (s (tk.concurrentPrefix ++ key)) requestID limit.Max
  have hl := leaseTake_length (s (tk.concurrentPrefix ++ key)) requestID limit.Max limit.Max hc
    (le_refl _)
  have hn : (0 : Int) ≤ ((leaseTake (s (tk.concurrentPrefix ++ key)) requestID
      limit.Max).1.length : Int) := Int.natCast_nonneg _
  have hs : sub64 limit.Max (leaseTake (s (tk.concurrentPrefix ++ key)) requestID limit.Max).2.2 =
      limit.Max - (leaseTake (s (tk.concurrentPrefix ++ key)) requestID limit.Max).2.2 := by
    unfold sub64 wrap64
    unfold maxInt64 at h1
    omega
  constructor
  · refine ⟨_, (Take_leaseStore F tk s key requestID limit).1, ?_, ?_, ?_⟩
    · show 0 ≤ sub64 _ _
      rw [hs]; omega
    · show (leaseTake _ _ _).2.2 ≤ limit.Max
      omega
    · exact hs
  · obtain ⟨e1, e2⟩ := Exec_leaseStore fo tk s key requestID limit
    refine ⟨_, e1, e2, ?_, ?_, ?_⟩
    · show 0 ≤ sub64 _ _
      rw [hs]; omega
    · show (leaseTake _ _ _).2.2 ≤ limit.Max
      omega
    · exact hs

theorem twoLeases_reachable : Reachable Int New "k" 2 twoLeases :=
  Reachable.take _ "k" "r2" { Max := 2, RequestMaxDuration := 0 }
    (Reachable.take _ "k" "r1" { Max := 2, RequestMaxDuration := 0 } Reachable.init
      (fun _ => by decide))
    (fun _ => by decide)

/-- C3, at the failing input.  `Take("k", "r1")` and `Take("k", "r2")` with
`Max = 2` succeed and leave two live leases, a store state reachable through
`Take` calls.  A `Take("k", "r3")` with `Max = 1` then succeeds and returns
`Allowed = false`, `Used = 2`, `Remaining = -1`, as a single call, as a batch
of one, and as the third `Take` of one batch on the empty store: `Remaining`
is negative and `Used` exceeds `Limit.Max`.  The decoders themselves, on the
store reply `(0, 2)` with `Max = 1`, compute `Remaining = Limit.Max - current
= -1`, with no clamp.  The comment on `ConcurrencyResult.Remaining` describes
a number of requests that could still be permitted, which is 0 here. -/
theorem take_with_smaller_max_goes_negative :
    Reachable Int New "k" 2 twoLeases ∧
    (New.Take (leaseStore Int) (fun _ => []) "k" "r1"
        { Max := 2, RequestMaxDuration := 0 }).ret =
      .ok { Key := "k", RequestID := "r1", Limit := { Max := 2, RequestMaxDuration := 0 },
            Allowed := true, Used := 1, Remaining := 1 } ∧
    (New.Take (leaseStore Int)
        (New.Take (leaseStore Int) (fun _ => []) "k" "r1"
          { Max := 2, RequestMaxDuration := 0 }).store
        "k" "r2" { Max := 2, RequestMaxDuration := 0 }).ret =
      .ok { Key := "k", RequestID := "r2", Limit := { Max := 2, RequestMaxDuration := 0 },
            Allowed := true, Used := 2, Remaining := 0 } ∧
    (New.Take (leaseStore Int) twoLeases "k" "r3" { Max := 1, RequestMaxDuration := 0 }).ret =
      .ok { Key := "k", RequestID := "r3", Limit := { Max := 1, RequestMaxDuration := 0 },
            Allowed := false, Used := 2, Remaining := -1 } ∧
    ((New.Pipeline.Take "k" "r3" { Max := 1, RequestMaxDuration := 0 }).1.Exec
        wholeSeconds (leaseStore Int) twoLeases).ret = .nil ∧
    ((New.Pipeline.Take "k" "r3" { Max := 1, RequestMaxDuration := 0 }).1.Exec
        wholeSeconds (leaseStore Int) twoLeases).p.takeCommands =
      [{ Key := "k", RequestID := "r3", Limit := { Max := 1, RequestMaxDuration := 0 },
         Allowed := false, Used := 2, Remaining := -1 }] ∧
    (threeTakes.Exec wholeSeconds (leaseStore Int) (fun _ => [])).ret = .nil ∧
    (threeTakes.Exec wholeSeconds (leaseStore Int) (fun _ => [])).p.takeCommands =
      [{ Key := "k", RequestID := "r1", Limit := { Max := 2, RequestMaxDuration := 0 },
         Allowed := true, Used := 1, Remaining := 1 },
       { Key := "k", RequestID := "r2", Limit := { Max := 2, RequestMaxDuration := 0 },
         Allowed := true, Used := 2, Remaining := 0 },
       { Key := "k", RequestID := "r3", Limit := { Max := 1, RequestMaxDuration := 0 },
         Allowed := false, Used := 2, Remaining := -1 }] ∧
    (New.Pipeline.takePipe (F := Int)
        { Key := "k", RequestID := "r3", Limit := { Max := 1, RequestMaxDuration := 0 },
          Allowed := false, Used := 0, Remaining := 0 }).2
        (.ok (.array [.int 0, .int 2])) =
      .ok { Key := "k", RequestID := "r3", Limit := { Max := 1, RequestMaxDuration := 0 },
            Allowed := false, Used := 2, Remaining := -1 } ∧
    decodeTakes "r3" (fun _ => .ok (.array [.int 0, .int 2]))
        [("k", { Max := 1, RequestMaxDuration := 0 })] 0 [] =
      .ok [("k", { Key := "k", RequestID := "r3",
                   Limit := { Max := 1, RequestMaxDuration := 0 },
                   Allowed := false, Used := 2, Remaining := -1 })] ∧
    ¬ ((0 : Int) ≤ -1) ∧ ¬ ((2 : Int) ≤ 1) :=
  ⟨twoLeases_reachable, by decide⟩

/-! ## Batched and single rate checks -/

theorem foldl_Allow (ops : List (String × Limit)) :
    ∀ p0 : pipeline, ops.foldl (fun p kl => (p.Allow kl.1 kl.2).1) p0 =
      { p0 with allowCommands := p0.allowCommands ++ ops.map queuedResult } := by
  induction ops with
  | nil => intro p0; simp
  | cons kl rest ih =>
    intro p0
    rw [List.foldl_cons, ih]
    simp [pipeline.Allow, queuedResult]

theorem queueAllows_eq (l : Limiter) (ops : List (String × Limit)) :
    queueAllows l ops =
      { l := l, releaseCommands := [], allowCommands := ops.map queuedResult,
        takeCommands := [] } := by
  unfold queueAllows
  rw [foldl_Allow]
  simp [Limiter.Pipeline]

theorem queueAllows_commands {F : Type} (fo : Float64Ops F) (l : Limiter)
    (ops : List (String × Limit)) (hne : ops ≠ []) :
    (queueAllows l ops).commands fo =
      Cmd.scriptExists .allowN :: ops.map (allowInvocation fo l) := by
  rw [queueAllows_eq]
  have hlen : 0 < ops.length := List.length_pos.mpr hne
  simp [pipeline.commands, Limiter.releasePipe, hlen, pipeline.allowPipe, allowInvocation,
    queuedResult, Function.comp_def]

theorem sentInvocations_append {F : Type} (a b : List (Event F)) :
    sentInvocations (a ++ b) = sentInvocations a ++ sentInvocations b := by
  induction a with
  | nil => rfl
  | cons e a ih => cases e <;> simp [sentInvocations, ih]

theorem filter_allowInvocations {F : Type} (fo : Float64Ops F) (l : Limiter)
    (ops : List (String × Limit)) :
    (ops.map (allowInvocation fo l)).filter
      (fun c => match c with | .evalSha _ _ _ => true | _ => false) =
      ops.map (allowInvocation fo l) := by
  rw [List.filter_eq_self]
  intro c hc
  obtain ⟨kl, _, rfl⟩ := List.mem_map.mp hc
  rfl

theorem Run_invocations {F σ : Type} (st : Store F σ) (s : σ) (sc : Script) (key : String)
    (args : List (Arg F)) :
    sentInvocations (Script.Run st s sc key args).2.2 = [Cmd.evalSha sc key args] := by
  unfold Script.Run
  generalize st.evalSha s sc key args = r
  obtain ⟨s1, res⟩ := r
  cases res with
  | error e =>
    by_cases hp : HasErrorPrefix e "NOSCRIPT" = true
    · simp [hp, sentInvocations]
    · simp [hp, sentInvocations]
  | ok v => simp [sentInvocations]

theorem AllowN_trace {F σ : Type} (fo : Float64Ops F) (st : Store F σ) (l : Limiter) (s : σ)
    (kl : String × Limit) :
    sentInvocations (l.AllowN fo st s kl.1 kl.2 1).trace = [allowInvocation fo l kl] := by
  have h := Run_invocations st s .allowN (l.ratePrefix ++ kl.1)
    [.int kl.2.Burst, .int kl.2.Rate, .float (fo.Seconds kl.2.Period), .int 1]
  unfold Limiter.AllowN
  generalize Script.Run st s .allowN (l.ratePrefix ++ kl.1)
    [.int kl.2.Burst, .int kl.2.Rate, .float (fo.Seconds kl.2.Period), .int 1] = r at h ⊢
  obtain ⟨s1, res, tr⟩ := r
  cases res with
  | error e => simpa [allowInvocation] using h
  | ok v => cases v <;> simpa [allowInvocation] using h

theorem allowEach_invocations {F σ : Type} (fo : Float64Ops F) (st : Store F σ) (l : Limiter) :
    ∀ (ops : List (String × Limit)) (s : σ),
      sentInvocations (allowEach fo st l ops s).2.2 = ops.map (allowInvocation fo l) := by
  intro ops
  induction ops with
  | nil => intro s; rfl
  | cons kl rest ih =>
    intro s
    simp only [allowEach, sentInvocations_append, AllowN_trace, ih, List.map_cons,
      List.singleton_append]

theorem runFinish_shift {α : Type} (f : α → Except Err Reply → Outcome α)
    (evals : Nat → Except Err Reply) :
    ∀ (l : List α) (i : Nat),
      runFinish f evals l (i + 1) = runFinish f (fun n => evals (n + 1)) l i := by
  intro l
  induction l with
  | nil => intro i; rfl
  | cons a l ih =>
    intro i
    simp only [runFinish, ih (i + 1)]

theorem runCommands_probe_first {F σ : Type} (c : Commands F σ) (s : σ) (sc : Script)
    (rest : List (Cmd F)) :
    (runCommands c s (.scriptExists sc :: rest)).1 = (runCommands c s rest).1 ∧
    (runCommands c s (.scriptExists sc :: rest)).2.probe 0 = c.scriptExists s sc ∧
    (runCommands c s (.scriptExists sc :: rest)).2.evals = (runCommands c s rest).2.evals := by
  simp [runCommands, RoundTrip.probe]

theorem runCommands_invocation {F σ : Type} (fo : Float64Ops F) (c : Commands F σ)
    (l : Limiter) (s : σ) (kl : String × Limit) (rest : List (Cmd F)) :
    runCommands c s (allowInvocation fo l kl :: rest) =
      ((runCommands c (c.evalSha s .allowN (l.ratePrefix ++ kl.1)
          [.int kl.2.Burst, .int kl.2.Rate, .float (fo.Seconds kl.2.Period), .int 1]).1 rest).1,
        { err := firstError (c.evalSha s .allowN (l.ratePrefix ++ kl.1)
              [.int kl.2.Burst, .int kl.2.Rate, .float (fo.Seconds kl.2.Period), .int 1]).2
            (runCommands c (c.evalSha s .allowN (l.ratePrefix ++ kl.1)
              [.int kl.2.Burst, .int kl.2.Rate, .float (fo.Seconds kl.2.Period), .int 1]).1
              rest).2.err
          probes := (runCommands c (c.evalSha s .allowN (l.ratePrefix ++ kl.1)
              [.int kl.2.Burst, .int kl.2.Rate, .float (fo.Seconds kl.2.Period), .int 1]).1
              rest).2.probes
          evals := (c.evalSha s .allowN (l.ratePrefix ++ kl.1)
              [.int kl.2.Burst, .int kl.2.Rate, .float (fo.Seconds kl.2.Period), .int 1]).2 ::
            (runCommands c (c.evalSha s .allowN (l.ratePrefix ++ kl.1)
              [.int kl.2.Burst, .int kl.2.Rate, .float (fo.Seconds kl.2.Period), .int 1]).1
              rest).2.evals }) := rfl

theorem AllowN_sequential {F σ : Type} (fo : Float64Ops F) (c : Commands F σ) (l : Limiter)
    (s : σ) (kl : String × Limit) (values : List Item)
    (h : (c.evalSha s .allowN (l.ratePrefix ++ kl.1)
      [.int kl.2.Burst, .int kl.2.Rate, .float (fo.Seconds kl.2.Period), .int 1]).2 =
        .ok (.array values)) :
    (l.AllowN fo (sequentialStore c) s kl.1 kl.2 1).ret =
      (queuedResult kl).parseScriptResult fo values ∧
    (l.AllowN fo (sequentialStore c) s kl.1 kl.2 1).store =
      (c.evalSha s .allowN (l.ratePrefix ++ kl.1)
        [.int kl.2.Burst, .int kl.2.Rate, .float (fo.Seconds kl.2.Period), .int 1]).1 := by
  simp [Limiter.AllowN, Script.Run, sequentialStore, h, queuedResult]

/-- Filling the rate handles from a round trip whose invocations ran one after
the other gives what the single calls return, one after the other. -/
theorem allowEach_matches {F σ : Type} (fo : Float64Ops F) (c : Commands F σ) (l : Limiter)
    (p : pipeline) :
    ∀ (ops : List (String × Limit)) (s : σ),
      (runFinish (fun rv => (p.allowPipe fo rv).2)
        (fun i => (runCommands c s (ops.map (allowInvocation fo l))).2.evals.getD i
          (.ok (.single .nil)))
        (ops.map queuedResult) 0).2 = .nil →
      (allowEach fo (sequentialStore c) l ops s).1 =
        (runFinish (fun rv => (p.allowPipe fo rv).2)
          (fun i => (runCommands c s (ops.map (allowInvocation fo l))).2.evals.getD i
            (.ok (.single .nil)))
          (ops.map queuedResult) 0).1.map Outcome.ok ∧
      (allowEach fo (sequentialStore c) l ops s).2.1 =
        (runCommands c s (ops.map (allowInvocation fo l))).1 := by
  intro ops
  induction ops with
  | nil => intro s _; simp [allowEach, runFinish, runCommands]
  | cons kl rest ih =>
    intro s h
    simp only [List.map_cons, runCommands_invocation] at h ⊢
    have hseq := AllowN_sequential fo c l s kl
    generalize c.evalSha s .allowN (l.ratePrefix ++ kl.1)
      [.int kl.2.Burst, .int kl.2.Rate, .float (fo.Seconds kl.2.Period), .int 1] = a
      at h hseq ⊢
    obtain ⟨s1, res⟩ := a
    unfold runFinish at h ⊢
    simp only [List.getD_cons_zero, Nat.zero_add] at h hseq ⊢
    cases res with
    | error e => simp [pipeline.allowPipe] at h
    | ok v =>
      cases v with
      | single x => simp [pipeline.allowPipe] at h
      | array values =>
        obtain ⟨r1, r2⟩ := hseq values rfl
        have hf : (p.allowPipe fo (queuedResult kl)).2 (.ok (.array values)) =
            (queuedResult kl).parseScriptResult fo values := rfl
        simp only [hf] at h ⊢
        cases hp : (queuedResult kl).parseScriptResult fo values with
        | err e => simp [hp] at h
        | panic => simp [hp] at h
        | ok rv1 =>
          simp only [hp] at h ⊢
          rw [show (1 : Nat) = 0 + 1 from rfl, runFinish_shift] at h ⊢
          simp only [List.getD_cons_succ] at h ⊢
          obtain ⟨i1, i2⟩ := ih s1 h
          simp only [allowEach, r1, r2, hp, i1, i2, List.map_cons]
          exact ⟨trivial, trivial⟩

theorem Exec_queueAllows {F σ : Type} (fo : Float64Ops F) (c : Commands F σ) (l : Limiter)
    (ops : List (String × Limit)) (s : σ) (hne : ops ≠ [])
    (hreg : c.scriptExists s .allowN = .ok [true]) :
    ((queueAllows l ops).Exec fo (sequentialStore c) s).trace =
      [Event.roundTrip (Cmd.scriptExists .allowN :: ops.map (allowInvocation fo l))
        (runCommands c s (Cmd.scriptExists .allowN :: ops.map (allowInvocation fo l))).2] ∧
    (((queueAllows l ops).Exec fo (sequentialStore c) s).ret = .nil →
      ((queueAllows l ops).Exec fo (sequentialStore c) s).store =
        (runCommands c s (ops.map (allowInvocation fo l))).1 ∧
      (runFinish (fun rv => ((queueAllows l ops).allowPipe fo rv).2)
        (fun i => (runCommands c s (ops.map (allowInvocation fo l))).2.evals.getD i
          (.ok (.single .nil)))
        (ops.map queuedResult) 0).2 = .nil ∧
      ((queueAllows l ops).Exec fo (sequentialStore c) s).p.allowCommands =
        (runFinish (fun rv => ((queueAllows l ops).allowPipe fo rv).2)
          (fun i => (runCommands c s (ops.map (allowInvocation fo l))).2.evals.getD i
            (.ok (.single .nil)))
          (ops.map queuedResult) 0).1) := by
  have hcmd := queueAllows_commands fo l ops hne
  have hc : (queueAllows l ops).commands fo ≠ [] := by rw [hcmd]; simp
  have hlen : 0 < ops.length := List.length_pos.mpr hne
  have hchk : (queueAllows l ops).scriptExistChecks = 1 := by
    rw [queueAllows_eq]; simp [pipeline.scriptExistChecks, hlen]
  have hallow : (queueAllows l ops).allowCommands = ops.map queuedResult := by
    rw [queueAllows_eq]
  have htake : (queueAllows l ops).takeCommands = [] := by
    rw [queueAllows_eq]
  obtain ⟨p1, p2, p3⟩ := runCommands_probe_first c s .allowN (ops.map (allowInvocation fo l))
  have hev : (runCommands c s (Cmd.scriptExists .allowN :: ops.map (allowInvocation fo l))).2.eval
      = fun i => (runCommands c s (ops.map (allowInvocation fo l))).2.evals.getD i
          (.ok (.single .nil)) := by
    funext i
    simp only [RoundTrip.eval, p3]
  unfold pipeline.Exec
  rw [exec_succ fo (sequentialStore c) _ s 0 (by omega)]
  simp only [pipeline.execBody, hcmd, hchk]
  rw [pipeExec_cons (sequentialStore c) s _ (List.cons_ne_nil _ _)]
  have hrt : (sequentialStore c).roundTrip s
      (Cmd.scriptExists .allowN :: ops.map (allowInvocation fo l)) =
      runCommands c s (Cmd.scriptExists .allowN :: ops.map (allowInvocation fo l)) := rfl
  have hr1 : List.range 1 = [0] := rfl
  simp only [hrt, hr1, List.map_cons, List.map_nil, p2, hreg, checkProbes,
    Bool.not_true, Bool.false_eq_true, ↓reduceIte]
  cases hf : roundTripFailure
      (runCommands c s (Cmd.scriptExists .allowN :: ops.map (allowInvocation fo l))).2.err with
  | some e => simp
  | none =>
    simp only [true_and]
    intro hnil
    simp only [pipeline.finish, hallow, htake, hev] at hnil ⊢
    cases ha : (runFinish (fun rv => ((queueAllows l ops).allowPipe fo rv).2)
        (fun i => (runCommands c s (ops.map (allowInvocation fo l))).2.evals.getD i
          (.ok (.single .nil)))
        (ops.map queuedResult) 0).2 with
    | nil =>
      refine ⟨p1, rfl, ?_⟩
      simp only [ha]
    | err e =>
      simp only [ha] at hnil
      exact Ret.noConfusion hnil
    | panic =>
      simp only [ha] at hnil
      exact Ret.noConfusion hnil

/-- C10 (amended). On a store that executes its commands one after the
other, started in a state where the rate procedure is registered: for every
list of queued `(key, limit)` `Allow` operations, `Exec` sends, in queue order,
the same procedure invocations (store key `ratePrefix + key`, arguments
`Burst`, `Rate`, `Period` in seconds, `n = 1`) as the sequential single calls
`AllowN(key, limit, 1)`; `Allow(key, limit)` is `AllowN` with `n = 1`; and
whenever `Exec` returns nil, every single call returns a `Result`, each handle
ends equal to the `Result` of the corresponding call, and the store ends in the
same state. -/
theorem batch_allows_match_single_calls {F σ : Type} (fo : Float64Ops F) (c : Commands F σ)
    (l : Limiter) (ops : List (String × Limit)) (s : σ)
    (hreg : c.scriptExists s .allowN = .ok [true]) :
    sentInvocations ((queueAllows l ops).Exec fo (sequentialStore c) s).trace =
      ops.map (allowInvocation fo l) ∧
    sentInvocations (allowEach fo (sequentialStore c) l ops s).2.2 =
      ops.map (allowInvocation fo l) ∧
    (∀ key limit, l.Allow fo (sequentialStore c) s key limit =
      l.AllowN fo (sequentialStore c) s key limit 1) ∧
    (((queueAllows l ops).Exec fo (sequentialStore c) s).ret = .nil →
      (allowEach fo (sequentialStore c) l ops s).1 =
        ((queueAllows l ops).Exec fo (sequentialStore c) s).p.allowCommands.map Outcome.ok ∧
      ((queueAllows l ops).Exec fo (sequentialStore c) s).p.allowCommands.length = ops.length ∧
      (allowEach fo (sequentialStore c) l ops s).2.1 =
        ((queueAllows l ops).Exec fo (sequentialStore c) s).store) := by
  refine ⟨?_, allowEach_invocations fo _ l ops s, fun _ _ => rfl, ?_⟩
  · by_cases hne : ops = []
    · subst hne
      rfl
    · rw [(Exec_queueAllows fo c l ops s hne hreg).1]
      simp [sentInvocations, filter_allowInvocations]
  · intro hnil
    by_cases hne : ops = []
    · subst hne
      exact ⟨rfl, rfl, rfl⟩
    · obtain ⟨h1, h2, h3⟩ := (Exec_queueAllows fo c l ops s hne hreg).2 hnil
      obtain ⟨m1, m2⟩ := allowEach_matches fo c l (queueAllows l ops) ops s h2
      rw [h3, h1]
      refine ⟨m1, ?_, m2⟩
      have := (runFinish_nil _ _ _ _ h2).1
      simpa using this

/-- C10, witness: two rate checks on `coldCommands` with the procedures
registered. -/
theorem batch_allows_match_single_calls_witness :
    (coldCommands.scriptExists true .allowN = .ok [true] ∧
      ((queueAllows New twoChecks).Exec wholeSeconds (sequentialStore coldCommands) true).ret =
        .nil) ∧
    sentInvocations
        ((queueAllows New twoChecks).Exec wholeSeconds (sequentialStore coldCommands) true).trace =
      twoChecks.map (allowInvocation wholeSeconds New) ∧
    sentInvocations
        (allowEach wholeSeconds (sequentialStore coldCommands) New twoChecks true).2.2 =
      twoChecks.map (allowInvocation wholeSeconds New) ∧
    (allowEach wholeSeconds (sequentialStore coldCommands) New twoChecks true).1 =
      ((queueAllows New twoChecks).Exec wholeSeconds (sequentialStore coldCommands)
        true).p.allowCommands.map Outcome.ok ∧
    ((queueAllows New twoChecks).Exec wholeSeconds (sequentialStore coldCommands)
      true).p.allowCommands.length = twoChecks.length ∧
    (allowEach wholeSeconds (sequentialStore coldCommands) New twoChecks true).2.1 =
      ((queueAllows New twoChecks).Exec wholeSeconds (sequentialStore coldCommands) true).store :=
  have t := batch_allows_match_single_calls wholeSeconds coldCommands New twoChecks true
    (by decide)
  ⟨⟨by decide, by decide⟩, t.1, t.2.1, t.2.2.2 (by decide)⟩

/-- C10, counterexample: on `wrongTypeStore` the procedures are registered and
the rate check on `b` fails.  The single calls return a `Result` for `a` and the
error for `b`; the batch of the same two checks fails as a whole and leaves the
handle of `a` as queued, not equal to the `Result` the single call returns. -/
theorem failed_batch_handle_differs_from_single_call :
    queueAllows New twoChecks = twoAllows ∧
    (wrongTypeStore.roundTrip () (twoAllows.commands wholeSeconds)).2.probes = [.ok [true]] ∧
    (allowEach wholeSeconds wrongTypeStore New twoChecks ()).1 =
      [.ok { Key := "a", Limit := tenPerSecond, Allowed := 1, Used := 0, Remaining := 9,
             RetryAfter := -1, ResetAfter := 1000000000 },
       .err (.reply "WRONGTYPE Operation against a key holding the wrong kind of value")] ∧
    (twoAllows.Exec wholeSeconds wrongTypeStore ()).ret =
      .err (.reply "WRONGTYPE Operation against a key holding the wrong kind of value") ∧
    (twoAllows.Exec wholeSeconds wrongTypeStore ()).p.allowCommands[0]? =
      some { Key := "a", Limit := tenPerSecond, Allowed := 0, Used := 0, Remaining := 0,
             RetryAfter := 0, ResetAfter := 0 } ∧
    ((twoAllows.Exec wholeSeconds wrongTypeStore ()).p.allowCommands.map Outcome.ok)[0]? ≠
      (allowEach wholeSeconds wrongTypeStore New twoChecks ()).1[0]? := by
  decide

end RedisRate
